import Mathlib

/-! # speedify-exporter: the collector of `main.go`

A shallow embedding of the Prometheus collector defined in `main.go`:
the three enum-to-number mappings, the descriptors built in `main`,
`Describe`, and `Collect`, together with the parts of the Go standard library
and of the Prometheus client library that `Collect` calls.

Conventions of the embedding.

* Go `string` values held by the decoded records are Lean `String`s.
* `float64` sample values are `Float64` records holding the sign, biased
  exponent and fraction of an IEEE 754 binary64 number; the collector performs
  no arithmetic on them, it only stores literals and decoded numbers.
* The output of the tool is a `List UInt8`; the JSON scanner and decoder work
  on the numbers `0 .. 255` these bytes hold.
* `exec.Command(name, args...).Output()` is a function argument of `Collect`,
  giving the captured bytes and the error for each command line.
* `json.Unmarshal` follows `encoding/json`: the scanner of `scanner.go` state
  by state, then the decoding rules of `decode.go` for the two targets of
  `main.go`, a `SpeedifyState` and a `[]Adapter`.
* A channel send `ch <- x` appends `x` to the list of values sent so far.
* A Go panic is the `Except.error` outcome.
-/

namespace Speedify

/-! ## Constants of `main.go` -/

/-- The constant `namespace` of `main.go`. -/
def «namespace» : String := "speedify"

/-- The constant `speedify_cli` of `main.go`. -/
def speedify_cli : String := "/usr/share/speedify/speedify_cli"

/-! ## `float64` -/

/-- A Go `float64`: sign bit, 11-bit biased exponent and 52-bit fraction of an
IEEE 754 binary64 number. -/
structure Float64 where
  sign : Bool
  exp : Nat
  frac : Nat
  deriving DecidableEq, Repr

/-- Positive zero, the zero value of a Go `float64`. -/
def Float64.zero : Float64 := ⟨false, 0, 0⟩

instance : Inhabited Float64 := ⟨Float64.zero⟩

/-- Whether `2 ^ k ≤ a / b`, for `b > 0`. -/
def pow2Le (k : Int) (a b : Nat) : Bool :=
  match k with
  | Int.ofNat n => decide (2 ^ n * b ≤ a)
  | Int.negSucc n => decide (b ≤ a * 2 ^ (n + 1))

/-- Floor of the base-2 logarithm of `n` (`0` for `n < 2`); `fuel ≥ n` is
never exhausted because `n` halves at every step. -/
def log2Fuel : Nat → Nat → Nat
  | 0, _ => 0
  | fuel + 1, n => if n < 2 then 0 else log2Fuel fuel (n / 2) + 1

/-- The integer `e` with `2 ^ e ≤ a / b < 2 ^ (e + 1)`, for `a, b > 0`. -/
def floorLog2 (a b : Nat) : Int :=
  let k : Int := (log2Fuel a a : Int) - (log2Fuel b b : Int)
  if pow2Le k a b then k else k - 1

/-- Round half to even of `a / b`, for `b > 0`. -/
def roundHalfEven (a b : Nat) : Nat :=
  let m := a / b
  let r := a % b
  if 2 * r < b then m
  else if b < 2 * r then m + 1
  else if m % 2 = 0 then m else m + 1

/-- Round half to even of `(a / b) / 2 ^ s`, for `b > 0`. -/
def roundScaled (a b : Nat) (s : Int) : Nat :=
  match s with
  | Int.ofNat n => roundHalfEven a (b * 2 ^ n)
  | Int.negSucc n => roundHalfEven (a * 2 ^ (n + 1)) b

/-- Assemble the binary64 number `(-1)^sign * m * 2 ^ (e - 52)`, where
`m ≤ 2 ^ 53` is the rounded significand for the exponent `e ≥ -1022`;
`none` when the exponent does not fit. -/
def Float64.pack (sign : Bool) (e : Int) (m : Nat) : Option Float64 :=
  if m < 4503599627370496 then some (Float64.mk sign 0 m)
  else
    let e2 : Int := if m = 9007199254740992 then e + 1 else e
    let m2 : Nat := if m = 9007199254740992 then 4503599627370496 else m
    if 2047 ≤ e2 + 1023 then none
    else some (Float64.mk sign (e2 + 1023).toNat (m2 - 4503599627370496))

/-- The binary64 number nearest to `(-1)^sign * a / b` (`b > 0`), ties to even,
as IEEE 754 conversion from decimal does; `none` when the rounded magnitude
exceeds the largest finite binary64 number. -/
def Float64.round (sign : Bool) (a b : Nat) : Option Float64 :=
  if a = 0 then some (Float64.mk sign 0 0)
  else
    let e : Int := max (floorLog2 a b) (-1022)
    -- the unit in the last place is 2 ^ (e - 52)
    Float64.pack sign e (roundScaled a b (e - 52))

/-- The `float64` a Go numeric constant `n` denotes (constants in `main.go`
are small integers, converted exactly). -/
def Float64.ofNat (n : Nat) : Float64 :=
  (Float64.round false n 1).getD Float64.zero

instance (n : Nat) : OfNat Float64 n := ⟨Float64.ofNat n⟩

/-- The rational a finite `Float64` stands for. -/
def Float64.toRat (x : Float64) : ℚ :=
  let mag : ℚ :=
    if x.exp = 0 then (x.frac : ℚ) * (2 : ℚ) ^ (-1074 : Int)
    else ((2 ^ 52 + x.frac : Nat) : ℚ) * (2 : ℚ) ^ ((x.exp : Int) - 1075)
  if x.sign then -mag else mag

/-! ## Records decoded from the tool output -/

/-- Go `type SpeedifyState struct { State string }`. -/
structure SpeedifyState where
  State : String := ""
  deriving DecidableEq, Repr

/-- Go `type DataUsage struct`: six `float64` fields. -/
structure DataUsage where
  OverlimitRateLimit : Float64 := Float64.zero
  UsageDaily : Float64 := Float64.zero
  UsageDailyBoost : Float64 := Float64.zero
  UsageDailyLimit : Float64 := Float64.zero
  UsageMonthly : Float64 := Float64.zero
  UsageMonthlyLimit : Float64 := Float64.zero
  deriving DecidableEq, Repr

/-- Go `type Adapter struct`. -/
structure Adapter where
  AdapterID : String := ""
  DataUsage : DataUsage := {}
  Priority : String := ""
  State : String := ""
  «Type» : String := ""
  deriving DecidableEq, Repr

/-- Go `func (state *SpeedifyState) getStateMetric() float64`. -/
def SpeedifyState.getStateMetric (state : SpeedifyState) : Float64 :=
  if state.State = "LOGGED_OUT" then 0
  else if state.State = "LOGGED_IN" then 1
  else if state.State = "CONNECTED" then 2
  else 3

/-- Go `func (adapter *Adapter) getPriorityMetric() float64`. -/
def Adapter.getPriorityMetric (adapter : Adapter) : Float64 :=
  if adapter.Priority = "never" then 0
  else if adapter.Priority = "always" then 1
  else if adapter.Priority = "secondary" then 2
  else if adapter.Priority = "backup" then 3
  else 4

/-- Go `func (adapter *Adapter) getStateMetric() float64`. -/
def Adapter.getStateMetric (adapter : Adapter) : Float64 :=
  if adapter.State = "disconnected" then 0
  else if adapter.State = "connected" then 1
  else 2

/-! ## `encoding/json`: the scanner

`json.Unmarshal` first runs `checkValid`, a byte-at-a-time state machine, over
the whole input and returns a syntax error, leaving the target untouched,
when the input is not one well-formed JSON value. The definitions below follow
`scanner.go` of the Go standard library state by state. -/

/-- The byte of an ASCII character. Bytes are handled as the numbers
`0 .. 255` they hold. -/
def ch (c : Char) : Nat := c.toNat

/-- The result codes of a scanner step (`scanContinue` .. `scanError`). -/
inductive Opcode where
  | scanContinue
  | scanBeginLiteral
  | scanBeginObject
  | scanObjectKey
  | scanObjectValue
  | scanEndObject
  | scanBeginArray
  | scanArrayValue
  | scanEndArray
  | scanSkipSpace
  | scanEnd
  | scanError
  deriving DecidableEq, Repr

/-- The entries of the scanner's parse-state stack. -/
inductive ParseState where
  | parseObjectKey
  | parseObjectValue
  | parseArrayValue
  deriving DecidableEq, Repr

/-- The step functions of the scanner, as values of its `step` field. -/
inductive Step where
  | stateBeginValueOrEmpty
  | stateBeginValue
  | stateBeginStringOrEmpty
  | stateBeginString
  | stateEndValue
  | stateEndTop
  | stateInString
  | stateInStringEsc
  | stateInStringEscU
  | stateInStringEscU1
  | stateInStringEscU12
  | stateInStringEscU123
  | stateNeg
  | state1
  | state0
  | stateDot
  | stateDot0
  | stateE
  | stateESign
  | stateE0
  | stateT
  | stateTr
  | stateTru
  | stateF
  | stateFa
  | stateFal
  | stateFals
  | stateN
  | stateNu
  | stateNul
  | stateError
  deriving DecidableEq, Repr

/-- Go `type scanner struct`: the current step function, the parse-state
stack (innermost entry first), whether the top-level value has ended, and
whether an error was recorded. -/
structure Scanner where
  step : Step
  parseState : List ParseState
  endTop : Bool
  err : Bool
  deriving DecidableEq, Repr

/-- The constant `maxNestingDepth`. -/
def maxNestingDepth : Nat := 10000

/-- Go `func (s *scanner) reset()`. -/
def Scanner.reset : Scanner :=
  { step := Step.stateBeginValue, parseState := [], endTop := false, err := false }

/-- Go `func (s *scanner) error(c byte, context string) int`. -/
def Scanner.error (s : Scanner) : Opcode × Scanner :=
  (Opcode.scanError, { s with step := Step.stateError, err := true })

/-- Go `func (s *scanner) pushParseState`, after the caller has set the next
step function. -/
def Scanner.pushParseState (s : Scanner) (newParseState : ParseState)
    (successState : Opcode) : Opcode × Scanner :=
  let s1 := { s with parseState := newParseState :: s.parseState }
  if s1.parseState.length ≤ maxNestingDepth then (successState, s1)
  else s1.error

/-- Go `func (s *scanner) popParseState()`. -/
def Scanner.popParseState (s : Scanner) : Scanner :=
  let rest := s.parseState.tail
  if rest.length = 0 then { s with parseState := rest, step := Step.stateEndTop, endTop := true }
  else { s with parseState := rest, step := Step.stateEndValue }

/-- Go `func isSpace(c byte) bool`. -/
def isSpace (c : Nat) : Bool :=
  c == ch ' ' || c == ch '\t' || c == ch '\r' || c == ch '\n'

/-- Whether `c` is an ASCII decimal digit. -/
def isDigit (c : Nat) : Bool :=
  ch '0' ≤ c && c ≤ ch '9'

/-- Whether `c` is an ASCII hexadecimal digit. -/
def isHex (c : Nat) : Bool :=
  isDigit c || (ch 'a' ≤ c && c ≤ ch 'f') || (ch 'A' ≤ c && c ≤ ch 'F')

/-- Go `func stateEndTop`: a non-space byte after the top-level value records
an error, reported on the next call. -/
def stateEndTop (s : Scanner) (c : Nat) : Opcode × Scanner :=
  if !isSpace c then (Opcode.scanEnd, (s.error).2)
  else (Opcode.scanEnd, s)

/-- Go `func stateEndValue`. -/
def stateEndValue (s : Scanner) (c : Nat) : Opcode × Scanner :=
  match s.parseState with
  | [] => stateEndTop { s with step := Step.stateEndTop, endTop := true } c
  | ps :: rest =>
    if isSpace c then (Opcode.scanSkipSpace, { s with step := Step.stateEndValue })
    else
      match ps with
      | ParseState.parseObjectKey =>
        if c == ch ':' then
          (Opcode.scanObjectKey,
            { s with parseState := ParseState.parseObjectValue :: rest,
                     step := Step.stateBeginValue })
        else s.error
      | ParseState.parseObjectValue =>
        if c == ch ',' then
          (Opcode.scanObjectValue,
            { s with parseState := ParseState.parseObjectKey :: rest,
                     step := Step.stateBeginString })
        else if c == ch '}' then (Opcode.scanEndObject, s.popParseState)
        else s.error
      | ParseState.parseArrayValue =>
        if c == ch ',' then (Opcode.scanArrayValue, { s with step := Step.stateBeginValue })
        else if c == ch ']' then (Opcode.scanEndArray, s.popParseState)
        else s.error

/-- Go `func stateBeginValue`. -/
def stateBeginValue (s : Scanner) (c : Nat) : Opcode × Scanner :=
  if isSpace c then (Opcode.scanSkipSpace, s)
  else if c == ch '{' then
    { s with step := Step.stateBeginStringOrEmpty }.pushParseState
      ParseState.parseObjectKey Opcode.scanBeginObject
  else if c == ch '[' then
    { s with step := Step.stateBeginValueOrEmpty }.pushParseState
      ParseState.parseArrayValue Opcode.scanBeginArray
  else if c == ch '"' then (Opcode.scanBeginLiteral, { s with step := Step.stateInString })
  else if c == ch '-' then (Opcode.scanBeginLiteral, { s with step := Step.stateNeg })
  else if c == ch '0' then (Opcode.scanBeginLiteral, { s with step := Step.state0 })
  else if c == ch 't' then (Opcode.scanBeginLiteral, { s with step := Step.stateT })
  else if c == ch 'f' then (Opcode.scanBeginLiteral, { s with step := Step.stateF })
  else if c == ch 'n' then (Opcode.scanBeginLiteral, { s with step := Step.stateN })
  else if ch '1' ≤ c && c ≤ ch '9' then (Opcode.scanBeginLiteral, { s with step := Step.state1 })
  else s.error

/-- Go `func stateBeginValueOrEmpty`. -/
def stateBeginValueOrEmpty (s : Scanner) (c : Nat) : Opcode × Scanner :=
  if isSpace c then (Opcode.scanSkipSpace, s)
  else if c == ch ']' then stateEndValue s c
  else stateBeginValue s c

/-- Go `func stateBeginString`. -/
def stateBeginString (s : Scanner) (c : Nat) : Opcode × Scanner :=
  if isSpace c then (Opcode.scanSkipSpace, s)
  else if c == ch '"' then (Opcode.scanBeginLiteral, { s with step := Step.stateInString })
  else s.error

/-- Go `func stateBeginStringOrEmpty`. -/
def stateBeginStringOrEmpty (s : Scanner) (c : Nat) : Opcode × Scanner :=
  if isSpace c then (Opcode.scanSkipSpace, s)
  else if c == ch '}' then
    stateEndValue { s with parseState := ParseState.parseObjectValue :: s.parseState.tail } c
  else stateBeginString s c

/-- Go `func stateInString`. -/
def stateInString (s : Scanner) (c : Nat) : Opcode × Scanner :=
  if c == ch '"' then (Opcode.scanContinue, { s with step := Step.stateEndValue })
  else if c == ch '\\' then (Opcode.scanContinue, { s with step := Step.stateInStringEsc })
  else if c < 0x20 then s.error
  else (Opcode.scanContinue, s)

/-- Go `func stateInStringEsc`. -/
def stateInStringEsc (s : Scanner) (c : Nat) : Opcode × Scanner :=
  if c == ch 'b' || c == ch 'f' || c == ch 'n' || c == ch 'r' || c == ch 't' ||
      c == ch '\\' || c == ch '/' || c == ch '"' then
    (Opcode.scanContinue, { s with step := Step.stateInString })
  else if c == ch 'u' then (Opcode.scanContinue, { s with step := Step.stateInStringEscU })
  else s.error

/-- The four step functions `stateInStringEscU` .. `stateInStringEscU123`: a
hexadecimal digit moves to `next`. -/
def stateHexDigit (next : Step) (s : Scanner) (c : Nat) : Opcode × Scanner :=
  if isHex c then (Opcode.scanContinue, { s with step := next })
  else s.error

/-- Go `func state0`. -/
def state0 (s : Scanner) (c : Nat) : Opcode × Scanner :=
  if c == ch '.' then (Opcode.scanContinue, { s with step := Step.stateDot })
  else if c == ch 'e' || c == ch 'E' then (Opcode.scanContinue, { s with step := Step.stateE })
  else stateEndValue s c

/-- Go `func state1`. -/
def state1 (s : Scanner) (c : Nat) : Opcode × Scanner :=
  if isDigit c then (Opcode.scanContinue, { s with step := Step.state1 })
  else state0 s c

/-- Go `func stateNeg`. -/
def stateNeg (s : Scanner) (c : Nat) : Opcode × Scanner :=
  if c == ch '0' then (Opcode.scanContinue, { s with step := Step.state0 })
  else if ch '1' ≤ c && c ≤ ch '9' then (Opcode.scanContinue, { s with step := Step.state1 })
  else s.error

/-- Go `func stateDot`. -/
def stateDot (s : Scanner) (c : Nat) : Opcode × Scanner :=
  if isDigit c then (Opcode.scanContinue, { s with step := Step.stateDot0 })
  else s.error

/-- Go `func stateDot0`. -/
def stateDot0 (s : Scanner) (c : Nat) : Opcode × Scanner :=
  if isDigit c then (Opcode.scanContinue, s)
  else if c == ch 'e' || c == ch 'E' then (Opcode.scanContinue, { s with step := Step.stateE })
  else stateEndValue s c

/-- Go `func stateESign`. -/
def stateESign (s : Scanner) (c : Nat) : Opcode × Scanner :=
  if isDigit c then (Opcode.scanContinue, { s with step := Step.stateE0 })
  else s.error

/-- Go `func stateE`. -/
def stateE (s : Scanner) (c : Nat) : Opcode × Scanner :=
  if c == ch '+' || c == ch '-' then (Opcode.scanContinue, { s with step := Step.stateESign })
  else stateESign s c

/-- Go `func stateE0`. -/
def stateE0 (s : Scanner) (c : Nat) : Opcode × Scanner :=
  if isDigit c then (Opcode.scanContinue, s)
  else stateEndValue s c

/-- The step functions inside the literals `true`, `false` and `null`
(`stateT`, `stateTr`, ...): the expected letter moves to `next`. -/
def stateLetter (expected : Char) (next : Step) (s : Scanner) (c : Nat) : Opcode × Scanner :=
  if c == ch expected then (Opcode.scanContinue, { s with step := next })
  else s.error

/-- One call `s.step(s, c)`: dispatch on the current step function. -/
def Scanner.run (s : Scanner) (c : Nat) : Opcode × Scanner :=
  match s.step with
  | Step.stateBeginValueOrEmpty => stateBeginValueOrEmpty s c
  | Step.stateBeginValue => stateBeginValue s c
  | Step.stateBeginStringOrEmpty => stateBeginStringOrEmpty s c
  | Step.stateBeginString => stateBeginString s c
  | Step.stateEndValue => stateEndValue s c
  | Step.stateEndTop => stateEndTop s c
  | Step.stateInString => stateInString s c
  | Step.stateInStringEsc => stateInStringEsc s c
  | Step.stateInStringEscU => stateHexDigit Step.stateInStringEscU1 s c
  | Step.stateInStringEscU1 => stateHexDigit Step.stateInStringEscU12 s c
  | Step.stateInStringEscU12 => stateHexDigit Step.stateInStringEscU123 s c
  | Step.stateInStringEscU123 => stateHexDigit Step.stateInString s c
  | Step.stateNeg => stateNeg s c
  | Step.state1 => state1 s c
  | Step.state0 => state0 s c
  | Step.stateDot => stateDot s c
  | Step.stateDot0 => stateDot0 s c
  | Step.stateE => stateE s c
  | Step.stateESign => stateESign s c
  | Step.stateE0 => stateE0 s c
  | Step.stateT => stateLetter 'r' Step.stateTr s c
  | Step.stateTr => stateLetter 'u' Step.stateTru s c
  | Step.stateTru => stateLetter 'e' Step.stateEndValue s c
  | Step.stateF => stateLetter 'a' Step.stateFa s c
  | Step.stateFa => stateLetter 'l' Step.stateFal s c
  | Step.stateFal => stateLetter 's' Step.stateFals s c
  | Step.stateFals => stateLetter 'e' Step.stateEndValue s c
  | Step.stateN => stateLetter 'u' Step.stateNu s c
  | Step.stateNu => stateLetter 'l' Step.stateNul s c
  | Step.stateNul => stateLetter 'l' Step.stateEndValue s c
  | Step.stateError => (Opcode.scanError, s)

/-- Go `func (s *scanner) eof() int`. -/
def Scanner.eof (s : Scanner) : Opcode × Scanner :=
  if s.err then (Opcode.scanError, s)
  else if s.endTop then (Opcode.scanEnd, s)
  else
    let s1 := (s.run (ch ' ')).2
    if s1.endTop then (Opcode.scanEnd, s1)
    else (Opcode.scanError, { s1 with err := true })

/-- The loop of `checkValid`: `none` as soon as a step returns `scanError`. -/
def checkValidLoop (s : Scanner) : List Nat → Option Scanner
  | [] => some s
  | c :: cs =>
    match s.run c with
    | (Opcode.scanError, _) => none
    | (_, s1) => checkValidLoop s1 cs

/-- Go `func checkValid(data []byte, scan *scanner) error`: `true` when the
returned error is `nil`. -/
def checkValid (data : List Nat) : Bool :=
  match checkValidLoop Scanner.reset data with
  | none => false
  | some s => decide ((s.eof).1 ≠ Opcode.scanError)

/-- The bytes of a text, as the tool would write it (UTF-8). -/
def bytesOf (text : String) : List UInt8 :=
  text.data.flatMap String.utf8EncodeChar

/-! ## `encoding/json`: literals -/

/-- The Unicode replacement character `U+FFFD` (`utf8.RuneError`,
`unicode.ReplacementChar`). -/
def replacementChar : Char := Char.ofNat 0xFFFD

/-- The value of a hexadecimal digit. -/
def hexVal (c : Nat) : Nat :=
  if isDigit c then c - 48
  else if ch 'a' ≤ c && c ≤ ch 'f' then c - 97 + 10
  else c - 65 + 10

/-- Go `func getu4(s []byte) rune`: the code unit spelled by a `\uXXXX` escape
at the start of `s`, `none` (Go: `-1`) when `s` does not start with one. -/
def getu4 (s : List Nat) : Option Nat :=
  match s with
  | b :: u :: h1 :: h2 :: h3 :: h4 :: _ =>
    if b == ch '\\' && u == ch 'u' && isHex h1 && isHex h2 && isHex h3 && isHex h4 then
      some (((hexVal h1 * 16 + hexVal h2) * 16 + hexVal h3) * 16 + hexVal h4)
    else none
  | _ => none

/-- Library function `utf16.IsSurrogate`. -/
def isSurrogate (r : Nat) : Bool :=
  0xD800 ≤ r && r < 0xE000

/-- Library function `utf16.DecodeRune`: the code point of a surrogate pair,
the replacement character when the pair is not valid. -/
def utf16DecodeRune (r1 r2 : Nat) : Char :=
  if 0xD800 ≤ r1 && r1 < 0xDC00 && 0xDC00 ≤ r2 && r2 < 0xE000 then
    Char.ofNat ((r1 - 0xD800) * 1024 + (r2 - 0xDC00) + 0x10000)
  else replacementChar

/-- Whether `c` is a UTF-8 continuation byte (`0x80 .. 0xBF`). -/
def isCont (c : Nat) : Bool :=
  0x80 ≤ c && c ≤ 0xBF

/-- The range `utf8.DecodeRune` accepts for the second byte after the leading
byte `c`. -/
def acceptSecond (c b1 : Nat) : Bool :=
  if c == 0xE0 then 0xA0 ≤ b1 && b1 ≤ 0xBF
  else if c == 0xED then 0x80 ≤ b1 && b1 ≤ 0x9F
  else if c == 0xF0 then 0x90 ≤ b1 && b1 ≤ 0xBF
  else if c == 0xF4 then 0x80 ≤ b1 && b1 ≤ 0x8F
  else isCont b1

/-- Library function `utf8.DecodeRune` at a byte `c ≥ 0x80` followed by
`rest`: the code point of the UTF-8 sequence starting there and its length,
or the replacement character and length 1 when no well-formed sequence
starts there. -/
def decodeRune (c : Nat) (rest : List Nat) : Char × Nat :=
  if c < 0xC2 || 0xF4 < c then (replacementChar, 1)
  else
    match rest with
    | [] => (replacementChar, 1)
    | b1 :: rest1 =>
      if !acceptSecond c b1 then (replacementChar, 1)
      else if c < 0xE0 then (Char.ofNat ((c % 32) * 64 + b1 % 64), 2)
      else
        match rest1 with
        | [] => (replacementChar, 1)
        | b2 :: rest2 =>
          if !isCont b2 then (replacementChar, 1)
          else if c < 0xF0 then (Char.ofNat (((c % 16) * 64 + b1 % 64) * 64 + b2 % 64), 3)
          else
            match rest2 with
            | [] => (replacementChar, 1)
            | b3 :: _ =>
              if !isCont b3 then (replacementChar, 1)
              else (Char.ofNat ((((c % 8) * 64 + b1 % 64) * 64 + b2 % 64) * 64 + b3 % 64), 4)

/-- One round of the loop of `unquoteBytes` (`decode.go`) at the non-empty
rest `s` of a string body: the character produced and the number of bytes
consumed, `none` where `unquoteBytes` reports failure. An escape is replaced
by the character it spells; a `\u` escape is read as UTF-16, a surrogate pair
taking two escapes and an unpaired surrogate becoming `U+FFFD`; a byte that
does not start a well-formed UTF-8 sequence becomes `U+FFFD`. -/
def unquoteOne (s : List Nat) : Option (Char × Nat) :=
  match s with
  | [] => none
  | c :: rest =>
    if c == ch '\\' then
      match rest with
      | [] => none
      | e :: _ =>
        if e == ch 'u' then
          match getu4 s with
          | none => none
          | some rr =>
            if isSurrogate rr then
              match getu4 (s.drop 6) with
              | some rr1 =>
                if utf16DecodeRune rr rr1 ≠ replacementChar then
                  some (utf16DecodeRune rr rr1, 12)
                else some (replacementChar, 6)
              | none => some (replacementChar, 6)
            else some (Char.ofNat rr, 6)
        -- 39 is the apostrophe, which `unquoteBytes` accepts after a backslash
        else if e == ch '"' || e == ch '\\' || e == ch '/' || e == 39 then
          some (Char.ofNat e, 2)
        else if e == ch 'b' then some (Char.ofNat 8, 2)
        else if e == ch 'f' then some (Char.ofNat 12, 2)
        else if e == ch 'n' then some ('\n', 2)
        else if e == ch 'r' then some ('\r', 2)
        else if e == ch 't' then some ('\t', 2)
        else none
    else if c == ch '"' || c < 0x20 then none
    else if c < 0x80 then some (Char.ofNat c, 1)
    else some (decodeRune c rest)

/-- The loop of `unquoteBytes` over a string body, for at most `fuel` rounds;
every round consumes at least one byte, so `fuel = s.length` rounds always
reach the end of `s`. `none` where `unquoteBytes` reports failure. -/
def unquoteLoop : Nat → List Nat → Option (List Char)
  | _, [] => some []
  | 0, _ :: _ => none
  | fuel + 1, c :: rest =>
    match unquoteOne (c :: rest) with
    | none => none
    | some (r, k) =>
      match unquoteLoop fuel ((c :: rest).drop k) with
      | none => none
      | some t => some (r :: t)

/-- The characters of the body of a JSON string (the bytes between the
quotes), as `unquoteBytes` decodes them. -/
def unquoteBody (body : List Nat) : Option (List Char) :=
  unquoteLoop body.length body

/-- Go `func unquote(s []byte) (t string, ok bool)`: the string a quoted
literal denotes. -/
def unquote (lit : List Nat) : Option String :=
  match lit with
  | [] => none
  | q :: rest =>
    if q == ch '"' && rest.getLast? == some (ch '"') then
      (unquoteBody rest.dropLast).map String.mk
    else none

/-- The number a run of decimal digits spells. -/
def digitsValue (ds : List Nat) : Nat :=
  ds.foldl (fun n d => 10 * n + (d - 48)) 0

/-- Library function `strconv.ParseFloat(s, 64)` on a JSON number literal
(`-? digits (. digits)? ([eE] [+-]? digits)?`, as the scanner has checked):
the nearest `float64`, or `none` for the range error of a literal that
rounds beyond the largest finite `float64`. -/
def parseFloat64 (lit : List Nat) : Option Float64 :=
  let neg := lit.head? == some (ch '-')
  let body := if neg then lit.tail else lit
  let intDigits := body.takeWhile isDigit
  let afterInt := body.dropWhile isDigit
  let hasFrac := afterInt.head? == some (ch '.')
  let fracDigits := if hasFrac then afterInt.tail.takeWhile isDigit else []
  let afterFrac := if hasFrac then afterInt.tail.dropWhile isDigit else afterInt
  -- `afterFrac` is empty or starts with `e` or `E`
  let afterE := afterFrac.tail
  let expNeg := afterE.head? == some (ch '-')
  let expDigits :=
    if afterE.head? == some (ch '-') || afterE.head? == some (ch '+') then afterE.tail
    else afterE
  let e := digitsValue expDigits
  let mant := digitsValue (intDigits ++ fracDigits)
  let scale := fracDigits.length
  -- the literal denotes `mant * 10 ^ (±e - scale)`
  if expNeg then Float64.round neg mant (10 ^ (e + scale))
  else if scale ≤ e then Float64.round neg (mant * 10 ^ (e - scale)) 1
  else Float64.round neg mant (10 ^ (scale - e))

/-! ## `encoding/json`: the value read from the input

The decoder of `decode.go` walks the input with the same scanner and acts on
the codes the scanner returns. `Builder` follows those codes and assembles the
JSON value the walk visits. -/

/-- A JSON value. A number keeps the bytes of its literal; a string is already
unquoted; an object keeps its members in input order, duplicates included. -/
inductive JValue where
  | null
  | bool (b : Bool)
  | number (lit : List Nat)
  | string (s : String)
  | array (elems : List JValue)
  | object (members : List (String × JValue))

/-- An array or object whose end has not been read yet. -/
inductive Frame where
  | arr (elems : List JValue)
  | obj (members : List (String × JValue)) (key : Option String)

/-- The state of the walk: the bytes of the literal being read (latest first),
the value just completed and not yet stored, and the open containers
(innermost first). -/
structure Builder where
  lit : Option (List Nat)
  done : Option JValue
  stack : List Frame

/-- The panic message of `decode.go` for a scanner code the decoder does not
expect. -/
def phasePanicMsg : String := "JSON decoder out of sync - data changing underfoot?"

/-- The value of a literal, chosen by its first byte as `literalStore` does. -/
def literalValue (item : List Nat) : Except String JValue :=
  match item with
  | [] => Except.error phasePanicMsg
  | c :: _ =>
    if c == ch 'n' then Except.ok JValue.null
    else if c == ch 't' then Except.ok (JValue.bool true)
    else if c == ch 'f' then Except.ok (JValue.bool false)
    else if c == ch '"' then
      match unquote item with
      | some t => Except.ok (JValue.string t)
      | none => Except.error phasePanicMsg
    else if c == ch '-' || isDigit c then Except.ok (JValue.number item)
    else Except.error phasePanicMsg

/-- Close the literal being read, if any: it becomes the completed value. -/
def Builder.finishLiteral (b : Builder) : Except String Builder :=
  match b.lit with
  | none => Except.ok b
  | some rev =>
    match literalValue rev.reverse with
    | Except.ok v => Except.ok { b with lit := none, done := some v }
    | Except.error e => Except.error e

/-- Act on the code `op` the scanner returned for the byte `c`, once the
literal read before it, if any, has been closed. -/
def Builder.act (b : Builder) (op : Opcode) (c : Nat) : Except String Builder :=
  match op with
  | Opcode.scanBeginLiteral => Except.ok { b with lit := some [c] }
  | Opcode.scanBeginObject =>
    Except.ok { b with done := none, stack := Frame.obj [] none :: b.stack }
  | Opcode.scanBeginArray =>
    Except.ok { b with done := none, stack := Frame.arr [] :: b.stack }
  | Opcode.scanObjectKey =>
    match b.done, b.stack with
    | some (JValue.string k), Frame.obj members none :: rest =>
      Except.ok { b with done := none, stack := Frame.obj members (some k) :: rest }
    | _, _ => Except.error phasePanicMsg
  | Opcode.scanObjectValue =>
    match b.done, b.stack with
    | some v, Frame.obj members (some k) :: rest =>
      Except.ok { b with done := none, stack := Frame.obj (members ++ [(k, v)]) none :: rest }
    | _, _ => Except.error phasePanicMsg
  | Opcode.scanEndObject =>
    match b.done, b.stack with
    | some v, Frame.obj members (some k) :: rest =>
      Except.ok { b with done := some (JValue.object (members ++ [(k, v)])), stack := rest }
    | none, Frame.obj members none :: rest =>
      Except.ok { b with done := some (JValue.object members), stack := rest }
    | _, _ => Except.error phasePanicMsg
  | Opcode.scanArrayValue =>
    match b.done, b.stack with
    | some v, Frame.arr elems :: rest =>
      Except.ok { b with done := none, stack := Frame.arr (elems ++ [v]) :: rest }
    | _, _ => Except.error phasePanicMsg
  | Opcode.scanEndArray =>
    match b.done, b.stack with
    | some v, Frame.arr elems :: rest =>
      Except.ok { b with done := some (JValue.array (elems ++ [v])), stack := rest }
    | none, Frame.arr elems :: rest =>
      Except.ok { b with done := some (JValue.array elems), stack := rest }
    | _, _ => Except.error phasePanicMsg
  | Opcode.scanSkipSpace => Except.ok b
  | Opcode.scanEnd => Except.ok b
  | Opcode.scanContinue => Except.error phasePanicMsg
  | Opcode.scanError => Except.error phasePanicMsg

/-- One step of the walk: a byte inside a literal is appended to it; any other
byte closes the literal read before it, if any, and is then acted on. -/
def Builder.step (b : Builder) (op : Opcode) (c : Nat) : Except String Builder :=
  match op with
  | Opcode.scanContinue =>
    match b.lit with
    | some rev => Except.ok { b with lit := some (c :: rev) }
    | none => Except.error phasePanicMsg
  | _ =>
    match b.finishLiteral with
    | Except.ok b1 => b1.act op c
    | Except.error e => Except.error e

/-- Walk the input: scanner and builder advance together, byte by byte. -/
def walk (s : Scanner) (b : Builder) : List Nat → Except String Builder
  | [] => b.finishLiteral
  | c :: cs =>
    match b.step (s.run c).1 c with
    | Except.ok b1 => walk (s.run c).2 b1 cs
    | Except.error e => Except.error e

/-- The JSON value of an input that `checkValid` accepts. -/
def parseValue (data : List Nat) : Except String JValue :=
  match walk Scanner.reset ⟨none, none, []⟩ data with
  | Except.ok b =>
    match b.done, b.stack with
    | some v, [] => Except.ok v
    | _, _ => Except.error phasePanicMsg
  | Except.error e => Except.error e

/-! ## `encoding/json`: storing a value into the records of `main.go`

A value that does not fit its target is skipped and recorded as an
`UnmarshalTypeError`; decoding goes on, and `Unmarshal` returns the earliest
such error at the end. -/

/-- The field `savedError` of the decoder: the earliest type error. -/
abbrev Saved := Option String

/-- Go `func (d *decodeState) saveError(err error)`: only the first error is
kept. -/
def saveError (saved : Saved) (e : String) : Saved :=
  match saved with
  | some first => some first
  | none => some e

/-- The `Value` field of the `UnmarshalTypeError` for a value that does not
fit. -/
def JValue.kindName : JValue → String
  | JValue.null => "null"
  | JValue.bool _ => "bool"
  | JValue.number _ => "number"
  | JValue.string _ => "string"
  | JValue.array _ => "array"
  | JValue.object _ => "object"

/-- Store into a Go `string`: a JSON string is assigned, `null` is ignored,
anything else is a type error. -/
def storeString (v : JValue) (cur : String) (saved : Saved) : String × Saved :=
  match v with
  | JValue.string t => (t, saved)
  | JValue.null => (cur, saved)
  | other => (cur, saveError saved other.kindName)

/-- Store into a Go `float64`, as `literalStore` of `decode.go` does: a JSON
number is parsed and assigned unless it is out of range, in which case the
field is left as it is and a type error is recorded; `null` is ignored;
anything else is a type error. -/
def storeFloat64 (v : JValue) (cur : Float64) (saved : Saved) : Float64 × Saved :=
  match v with
  | JValue.number lit =>
    match parseFloat64 lit with
    | some x => (x, saved)
    | none => (cur, saveError saved ("number " ++ String.mk (lit.map Char.ofNat)))
  | JValue.null => (cur, saved)
  | other => (cur, saveError saved other.kindName)

/-- The representative of a character under simple case folding, exact for
the comparison with ASCII text: upper-case ASCII letters fold to lower case,
the Kelvin sign `U+212A` to `k` and the long s `U+017F` to `s`. -/
def foldRune (c : Char) : Char :=
  if c.isUpper then c.toLower
  else if c.toNat = 0x212A then 'k'
  else if c.toNat = 0x017F then 's'
  else c

/-- Library function `bytes.EqualFold` with an ASCII field name on the left. -/
def equalFold (field key : String) : Bool :=
  field.data.map foldRune == key.data.map foldRune

/-- The struct field an object key selects: the position of the field whose
name is the key, else of the first field whose name equals it under case
folding. -/
def findField (fields : List String) (key : String) : Option Nat :=
  match fields.indexOf? key with
  | some i => some i
  | none => fields.findIdx? (fun f => equalFold f key)

/-- One `key: value` member stored into a `DataUsage`. -/
def storeDataUsageMember (acc : DataUsage × Saved) (member : String × JValue) :
    DataUsage × Saved :=
  let cur := acc.1
  match findField ["OverlimitRateLimit", "UsageDaily", "UsageDailyBoost", "UsageDailyLimit",
      "UsageMonthly", "UsageMonthlyLimit"] member.1 with
  | some 0 =>
    let r := storeFloat64 member.2 cur.OverlimitRateLimit acc.2
    ({ cur with OverlimitRateLimit := r.1 }, r.2)
  | some 1 =>
    let r := storeFloat64 member.2 cur.UsageDaily acc.2
    ({ cur with UsageDaily := r.1 }, r.2)
  | some 2 =>
    let r := storeFloat64 member.2 cur.UsageDailyBoost acc.2
    ({ cur with UsageDailyBoost := r.1 }, r.2)
  | some 3 =>
    let r := storeFloat64 member.2 cur.UsageDailyLimit acc.2
    ({ cur with UsageDailyLimit := r.1 }, r.2)
  | some 4 =>
    let r := storeFloat64 member.2 cur.UsageMonthly acc.2
    ({ cur with UsageMonthly := r.1 }, r.2)
  | some 5 =>
    let r := storeFloat64 member.2 cur.UsageMonthlyLimit acc.2
    ({ cur with UsageMonthlyLimit := r.1 }, r.2)
  | _ => acc

/-- Store into a `DataUsage`: the members of a JSON object are stored one by
one, in input order; `null` is ignored; anything else is a type error. -/
def storeDataUsage (v : JValue) (cur : DataUsage) (saved : Saved) : DataUsage × Saved :=
  match v with
  | JValue.object members => members.foldl storeDataUsageMember (cur, saved)
  | JValue.null => (cur, saved)
  | other => (cur, saveError saved other.kindName)

/-- One `key: value` member stored into an `Adapter`. -/
def storeAdapterMember (acc : Adapter × Saved) (member : String × JValue) : Adapter × Saved :=
  let cur := acc.1
  match findField ["AdapterID", "DataUsage", "Priority", "State", "Type"] member.1 with
  | some 0 =>
    let r := storeString member.2 cur.AdapterID acc.2
    ({ cur with AdapterID := r.1 }, r.2)
  | some 1 =>
    let r := storeDataUsage member.2 cur.DataUsage acc.2
    ({ cur with DataUsage := r.1 }, r.2)
  | some 2 =>
    let r := storeString member.2 cur.Priority acc.2
    ({ cur with Priority := r.1 }, r.2)
  | some 3 =>
    let r := storeString member.2 cur.State acc.2
    ({ cur with State := r.1 }, r.2)
  | some 4 =>
    let r := storeString member.2 cur.«Type» acc.2
    ({ cur with «Type» := r.1 }, r.2)
  | _ => acc

/-- Store into an `Adapter`. -/
def storeAdapter (v : JValue) (cur : Adapter) (saved : Saved) : Adapter × Saved :=
  match v with
  | JValue.object members => members.foldl storeAdapterMember (cur, saved)
  | JValue.null => (cur, saved)
  | other => (cur, saveError saved other.kindName)

/-- The elements of a JSON array stored into a slice of adapters: element `i`
is stored into the slice's element `i`, or into a fresh zero-value `Adapter`
once the slice has been grown; the slice ends with as many elements as the
array has. -/
def storeAdapterElems : List JValue → List Adapter → Saved → List Adapter × Saved
  | [], _, saved => ([], saved)
  | e :: es, cur, saved =>
    let r := storeAdapter e (cur.headD {}) saved
    let rest := storeAdapterElems es cur.tail r.2
    (r.1 :: rest.1, rest.2)

/-- Store into a `[]Adapter`: a JSON array is stored element by element,
`null` sets the slice to `nil`, anything else is a type error. -/
def storeAdapters (v : JValue) (cur : List Adapter) (saved : Saved) : List Adapter × Saved :=
  match v with
  | JValue.array elems => storeAdapterElems elems cur saved
  | JValue.null => ([], saved)
  | other => (cur, saveError saved other.kindName)

/-- One `key: value` member stored into a `SpeedifyState`. -/
def storeSpeedifyStateMember (acc : SpeedifyState × Saved) (member : String × JValue) :
    SpeedifyState × Saved :=
  match findField ["State"] member.1 with
  | some 0 =>
    let r := storeString member.2 acc.1.State acc.2
    ({ acc.1 with State := r.1 }, r.2)
  | _ => acc

/-- Store into a `SpeedifyState`. -/
def storeSpeedifyState (v : JValue) (cur : SpeedifyState) (saved : Saved) :
    SpeedifyState × Saved :=
  match v with
  | JValue.object members => members.foldl storeSpeedifyStateMember (cur, saved)
  | JValue.null => (cur, saved)
  | other => (cur, saveError saved other.kindName)

/-- Go `func Unmarshal(data []byte, v any) error` for a target stored by
`store`: the target after the call and the error returned. A syntax error is
found by `checkValid` before anything is stored. -/
def Unmarshal {T : Type} (store : JValue → T → Saved → T × Saved) (data : List UInt8)
    (v : T) : Except String (T × Option String) :=
  if !checkValid (data.map UInt8.toNat) then Except.ok (v, some "SyntaxError")
  else do
    let j ← parseValue (data.map UInt8.toNat)
    pure (store j v none)

/-! ## The parts of the Prometheus client library that `main.go` uses -/

/-- Library type `prometheus.ValueType`. -/
inductive ValueType where
  | CounterValue
  | GaugeValue
  | UntypedValue
  deriving DecidableEq, Repr

/-- Library type `prometheus.Desc`, restricted to what `main.go` sets: the
fully-qualified name, the help text, the variable label names, and whether
construction recorded an error. No descriptor of `main.go` has constant
labels (the fourth argument of `NewDesc` is always `nil`). -/
structure Desc where
  fqName : String
  help : String
  variableLabels : List String
  err : Option String
  deriving DecidableEq, Repr

/-- Library function `prometheus.BuildFQName`: the non-empty parts joined by
underscores; the empty string when `name` is empty. -/
def BuildFQName (ns subsystem name : String) : String :=
  if name = "" then ""
  else if ns ≠ "" ∧ subsystem ≠ "" then ns ++ "_" ++ subsystem ++ "_" ++ name
  else if ns ≠ "" then ns ++ "_" ++ name
  else if subsystem ≠ "" then subsystem ++ "_" ++ name
  else name

/-- An ASCII letter or underscore. -/
def isNameStart (c : Char) : Bool :=
  c.isAlpha || c == '_'

/-- Library check `model.IsValidMetricName` (legacy scheme):
`[a-zA-Z_:][a-zA-Z0-9_:]*`. -/
def IsValidMetricName (n : String) : Bool :=
  match n.data with
  | [] => false
  | c :: cs => (isNameStart c || c == ':') &&
      cs.all (fun d => isNameStart d || d.isDigit || d == ':')

/-- Library check `checkLabelName`: `[a-zA-Z_][a-zA-Z0-9_]*` and not starting
with the reserved prefix `__`. -/
def checkLabelName (l : String) : Bool :=
  (match l.data with
   | [] => false
   | c :: cs => isNameStart c && cs.all (fun d => isNameStart d || d.isDigit)) &&
  !(['_', '_'].isPrefixOf l.data)

/-- Library function `prometheus.NewDesc` with `constLabels = nil`. The
descriptor records an error for an empty help text (older releases), an
invalid metric name, an invalid label name or duplicate label names. -/
def NewDesc (fqName help : String) (variableLabels : List String) : Desc :=
  { fqName := fqName
    help := help
    variableLabels := variableLabels
    err :=
      if help = "" then some "empty help string"
      else if !IsValidMetricName fqName then some "not a valid metric name"
      else if !variableLabels.all checkLabelName then some "not a valid label name"
      else if !variableLabels.Nodup then some "duplicate label names"
      else none }

/-- A sample handed to the channel of `Collect`: the library's `constMetric`,
kept as the arguments it was built from. -/
structure Metric where
  desc : Desc
  valueType : ValueType
  value : Float64
  labelValues : List String
  deriving DecidableEq, Repr

/-- Library function `prometheus.MustNewConstMetric`: panics when the
descriptor carries an error or when the number of label values differs from
the number of variable labels. (Its check that label values are valid UTF-8
cannot fail on a `String`.) -/
def MustNewConstMetric (desc : Desc) (valueType : ValueType) (value : Float64)
    (labelValues : List String) : Except String Metric :=
  match desc.err with
  | some e => Except.error e
  | none =>
    if labelValues.length ≠ desc.variableLabels.length then
      Except.error "inconsistent label cardinality"
    else Except.ok ⟨desc, valueType, value, labelValues⟩

/-- Library function `prometheus.MakeLabelPairs` for a descriptor without
constant labels: each variable label name paired with the value at the same
position, the pairs then sorted by label name (strings compare as their
character sequences). -/
def MakeLabelPairs (desc : Desc) (labelValues : List String) : List (String × String) :=
  (desc.variableLabels.zip labelValues).insertionSort (fun p q => ¬ (q.1.data < p.1.data))

/-! ## The collector -/

/-- Go `type SpeedifyCollector struct`: nine descriptors. -/
structure SpeedifyCollector where
  stateMetric : Desc
  adapterPriorityMetric : Desc
  adapterStateMetric : Desc
  adpaterOverlimitRateLimitMetric : Desc
  adpaterUsageDailyMetric : Desc
  adpaterUsageDailyBoostMetric : Desc
  adapterUsageDailyLimitMetric : Desc
  adpaterUsageMonthlyMetric : Desc
  adpaterUsageMonthlyLimitMetric : Desc
  deriving DecidableEq, Repr

/-- The collector value that `main` builds and registers (lines 38-47). -/
def mainCollector : SpeedifyCollector :=
  { stateMetric := NewDesc (BuildFQName «namespace» "" "state")
      "The state of Speedify: 0 (LOGGED_OUT), 1 (LOGGED_IN), 2 (CONNECTED)" []
    adapterPriorityMetric := NewDesc (BuildFQName «namespace» "adapter" "priority")
      "The priority of the adapter: 0 (never), 1 (always), 2 (secondary), 3 (backup)"
      ["adpterId", "adapterType"]
    adapterStateMetric := NewDesc (BuildFQName «namespace» "adapter" "state")
      "The state of the adapter: 0 (disconnected), 1 (connected)" ["adpterId", "adapterType"]
    adpaterOverlimitRateLimitMetric :=
      NewDesc (BuildFQName «namespace» "adapter" "overlimit_rate_limit")
        "The overlimit rate limit of the adapter." ["adpterId", "adapterType"]
    adpaterUsageDailyMetric := NewDesc (BuildFQName «namespace» "adapter" "daily_usage")
      "The daily data usage of the adapter." ["adpterId", "adapterType"]
    adpaterUsageDailyBoostMetric :=
      NewDesc (BuildFQName «namespace» "adapter" "daily_usage_boost")
        "The daily data usage boost of the adapter." ["adpterId", "adapterType"]
    adapterUsageDailyLimitMetric :=
      NewDesc (BuildFQName «namespace» "adapter" "daily_usage_limit")
        "The daily data usage limit of the adapter." ["adpterId", "adapterType"]
    adpaterUsageMonthlyMetric := NewDesc (BuildFQName «namespace» "adapter" "monthly_usage")
      "The monthly data usage of the adapter." ["adpterId", "adapterType"]
    adpaterUsageMonthlyLimitMetric :=
      NewDesc (BuildFQName «namespace» "adapter" "monthly_usage_limit")
        "The monthly data usage limit of the adapter." ["adpterId", "adapterType"] }

/-- Go `func (collector *SpeedifyCollector) Describe(ch chan<- *prometheus.Desc)`:
the descriptors sent on `ch`, in order. -/
def SpeedifyCollector.Describe (collector : SpeedifyCollector) : List Desc :=
  [collector.stateMetric]

/-- The nine descriptors held by a collector, in field order. -/
def SpeedifyCollector.descriptors (collector : SpeedifyCollector) : List Desc :=
  [collector.stateMetric, collector.adapterPriorityMetric, collector.adapterStateMetric,
   collector.adpaterOverlimitRateLimitMetric, collector.adpaterUsageDailyMetric,
   collector.adpaterUsageDailyBoostMetric, collector.adapterUsageDailyLimitMetric,
   collector.adpaterUsageMonthlyMetric, collector.adpaterUsageMonthlyLimitMetric]

/-- The body of the `for _, a := range adapters` loop of `Collect`
(lines 99-106): the eight samples sent for one adapter, in order. -/
def SpeedifyCollector.collectAdapter (collector : SpeedifyCollector) (a : Adapter) :
    Except String (List Metric) := do
  let m1 ← MustNewConstMetric collector.adapterPriorityMetric ValueType.CounterValue
    a.getPriorityMetric [a.AdapterID, a.«Type»]
  let m2 ← MustNewConstMetric collector.adapterStateMetric ValueType.GaugeValue
    a.getStateMetric [a.AdapterID, a.«Type»]
  let m3 ← MustNewConstMetric collector.adpaterOverlimitRateLimitMetric ValueType.GaugeValue
    a.DataUsage.OverlimitRateLimit [a.AdapterID, a.«Type»]
  let m4 ← MustNewConstMetric collector.adpaterUsageDailyMetric ValueType.CounterValue
    a.DataUsage.UsageDaily [a.AdapterID, a.«Type»]
  let m5 ← MustNewConstMetric collector.adpaterUsageDailyBoostMetric ValueType.GaugeValue
    a.DataUsage.UsageDailyBoost [a.AdapterID, a.«Type»]
  let m6 ← MustNewConstMetric collector.adapterUsageDailyLimitMetric ValueType.GaugeValue
    a.DataUsage.UsageDailyLimit [a.AdapterID, a.«Type»]
  let m7 ← MustNewConstMetric collector.adpaterUsageMonthlyMetric ValueType.CounterValue
    a.DataUsage.UsageMonthly [a.AdapterID, a.«Type»]
  let m8 ← MustNewConstMetric collector.adpaterUsageMonthlyLimitMetric ValueType.GaugeValue
    a.DataUsage.UsageMonthlyLimit [a.AdapterID, a.«Type»]
  pure [m1, m2, m3, m4, m5, m6, m7, m8]

/-- The `for _, a := range adapters` loop of `Collect`: the samples sent for
the adapters, in list order. -/
def SpeedifyCollector.collectAdapters (collector : SpeedifyCollector) :
    List Adapter → Except String (List Metric)
  | [] => pure []
  | a :: rest => do
    let ms ← collector.collectAdapter a
    let more ← collector.collectAdapters rest
    pure (ms ++ more)

/-! ## `Collect` -/

/-- What `exec.Command(name, args...).Output()` returns: the bytes captured
from standard output and the error, if any. -/
structure CmdResult where
  out : List UInt8
  err : Option String
  deriving DecidableEq, Repr

/-- What a call of `Collect` leaves behind: the lines logged with
`log.Errorf` and the samples sent on the channel, both in order. -/
structure Scrape where
  logs : List String
  sent : List Metric
  deriving DecidableEq, Repr

/-- Go `func (collector *SpeedifyCollector) Collect(ch chan<- prometheus.Metric)`.
`Output name args` stands for `exec.Command(name, args...).Output()`. The
error of a failed command is logged and nothing else is done with it; the
error `json.Unmarshal` returns is dropped. -/
def SpeedifyCollector.Collect (collector : SpeedifyCollector)
    (Output : String → List String → CmdResult) : Except String Scrape := do
  let r1 := Output speedify_cli ["state"]
  let logs1 :=
    match r1.err with
    | some err => ["Errored while getting speedify state: " ++ err]
    | none => []
  let state ← Unmarshal storeSpeedifyState r1.out ({} : SpeedifyState)
  let m ← MustNewConstMetric collector.stateMetric ValueType.GaugeValue
    state.1.getStateMetric []
  let r2 := Output speedify_cli ["show", "adapters"]
  let logs2 :=
    match r2.err with
    | some err => ["Errored while getting speedify adapters: " ++ err]
    | none => []
  let adapters ← Unmarshal storeAdapters r2.out ([] : List Adapter)
  let ms ← collector.collectAdapters adapters.1
  pure { logs := logs1 ++ logs2, sent := m :: ms }

/-! ## Auxiliary definitions for the proofs -/

/-- The samples the adapter loop of `Collect` sends for the collector built in
`main`, in closed form; `collectAdapters_main` proves it equal to what
`collectAdapters` returns. -/
def adapterSamples (adapters : List Adapter) : List Metric :=
  adapters.flatMap (fun a =>
    [⟨mainCollector.adapterPriorityMetric, ValueType.CounterValue, a.getPriorityMetric,
        [a.AdapterID, a.«Type»]⟩,
     ⟨mainCollector.adapterStateMetric, ValueType.GaugeValue, a.getStateMetric,
        [a.AdapterID, a.«Type»]⟩,
     ⟨mainCollector.adpaterOverlimitRateLimitMetric, ValueType.GaugeValue,
        a.DataUsage.OverlimitRateLimit, [a.AdapterID, a.«Type»]⟩,
     ⟨mainCollector.adpaterUsageDailyMetric, ValueType.CounterValue,
        a.DataUsage.UsageDaily, [a.AdapterID, a.«Type»]⟩,
     ⟨mainCollector.adpaterUsageDailyBoostMetric, ValueType.GaugeValue,
        a.DataUsage.UsageDailyBoost, [a.AdapterID, a.«Type»]⟩,
     ⟨mainCollector.adapterUsageDailyLimitMetric, ValueType.GaugeValue,
        a.DataUsage.UsageDailyLimit, [a.AdapterID, a.«Type»]⟩,
     ⟨mainCollector.adpaterUsageMonthlyMetric, ValueType.CounterValue,
        a.DataUsage.UsageMonthly, [a.AdapterID, a.«Type»]⟩,
     ⟨mainCollector.adpaterUsageMonthlyLimitMetric, ValueType.GaugeValue,
        a.DataUsage.UsageMonthlyLimit, [a.AdapterID, a.«Type»]⟩])

/-- The next string state of the scanner inside the body of a string
literal; `none` where the scanner leaves the body (closing quote) or fails. -/
def strNext (st : Step) (c : Nat) : Option Step :=
  match st with
  | Step.stateInString =>
    if c == ch '"' then none
    else if c == ch '\\' then some Step.stateInStringEsc
    else if c < 0x20 then none
    else some Step.stateInString
  | Step.stateInStringEsc =>
    if c == ch 'b' || c == ch 'f' || c == ch 'n' || c == ch 'r' || c == ch 't' ||
        c == ch '\\' || c == ch '/' || c == ch '"' then some Step.stateInString
    else if c == ch 'u' then some Step.stateInStringEscU
    else none
  | Step.stateInStringEscU => if isHex c then some Step.stateInStringEscU1 else none
  | Step.stateInStringEscU1 => if isHex c then some Step.stateInStringEscU12 else none
  | Step.stateInStringEscU12 => if isHex c then some Step.stateInStringEscU123 else none
  | Step.stateInStringEscU123 => if isHex c then some Step.stateInString else none
  | _ => none

/-- The string state of the scanner after the bytes of a string body. -/
def strRun : Step → List Nat → Option Step
  | st, [] => some st
  | st, c :: cs =>
    match strNext st c with
    | some st1 => strRun st1 cs
    | none => none

/-- A parse state of the scanner and the container the walk has open for it
agree. -/
def FrameOK : ParseState → Frame → Prop
  | ParseState.parseObjectKey, Frame.obj _ none => True
  | ParseState.parseObjectValue, Frame.obj _ (some _) => True
  | ParseState.parseArrayValue, Frame.arr _ => True
  | _, _ => False

/-- The stacks of scanner and walk agree and no entry awaits an object key. -/
def Suspended : List ParseState → List Frame → Prop
  | [], [] => True
  | ps :: pss, f :: fs => ps ≠ ParseState.parseObjectKey ∧ FrameOK ps f ∧ Suspended pss fs
  | _, _ => False

/-- The stacks of scanner and walk agree; only the innermost entry may await
an object key. -/
def StackInv : List ParseState → List Frame → Prop
  | [], [] => True
  | ps :: pss, f :: fs => FrameOK ps f ∧ Suspended pss fs
  | _, _ => False

/-- The literal being read starts like a literal that is not a string. -/
def NonStringLit (rev : List Nat) : Prop :=
  ∃ c0 tl, rev.reverse = c0 :: tl ∧
    (c0 = 110 ∨ c0 = 116 ∨ c0 = 102 ∨ c0 = 45 ∨ (48 ≤ c0 ∧ c0 ≤ 57))

/-- A value is at hand: closing the literal being read, if any, succeeds and
leaves a completed value, which is a string where an object key is awaited. -/
def Ready (ps : List ParseState) (b : Builder) : Prop :=
  ∃ b1 v, b.finishLiteral = Except.ok b1 ∧ b1.done = some v ∧ b1.lit = none ∧
    b1.stack = b.stack ∧
    (Suspended ps b.stack ∨ (StackInv ps b.stack ∧ ∃ k, v = JValue.string k))

/-- What the walk holds at each step function of the scanner. -/
def StepInv (s : Scanner) (b : Builder) : Prop :=
  match s.step with
  | Step.stateBeginValue | Step.stateBeginValueOrEmpty =>
    b.lit = none ∧ b.done = none ∧ Suspended s.parseState b.stack
  | Step.stateBeginString =>
    b.lit = none ∧ b.done = none ∧ StackInv s.parseState b.stack
  | Step.stateBeginStringOrEmpty =>
    b.lit = none ∧ b.done = none ∧ StackInv s.parseState b.stack ∧
      ∃ rest, s.parseState = ParseState.parseObjectKey :: rest
  | Step.stateInString | Step.stateInStringEsc | Step.stateInStringEscU
  | Step.stateInStringEscU1 | Step.stateInStringEscU12 | Step.stateInStringEscU123 =>
    StackInv s.parseState b.stack ∧
      ∃ rev body, b.lit = some rev ∧ rev.reverse = 34 :: body ∧
        strRun Step.stateInString body = some s.step
  | Step.stateEndValue => Ready s.parseState b
  | Step.stateEndTop =>
    s.parseState = [] ∧ b.stack = [] ∧ b.lit = none ∧ ∃ v, b.done = some v
  | Step.stateError => False
  | _ => Suspended s.parseState b.stack ∧ ∃ rev, b.lit = some rev ∧ NonStringLit rev

/-- Scanner and walk agree and the scanner has met no error. -/
structure Good (s : Scanner) (b : Builder) : Prop where
  noErr : s.err = false
  top : s.endTop = true ↔ s.step = Step.stateEndTop
  inv : StepInv s b

/-- The scanner has recorded an error that the next call reports. -/
def Doomed (s : Scanner) : Prop :=
  s.err = true ∧ s.step = Step.stateError

/-- The walk can follow the scanner's result `r` for the byte `c`, and then
agrees with the scanner again. -/
def StepOK (b : Builder) (c : Nat) (r : Opcode × Scanner) : Prop :=
  r.1 ≠ Opcode.scanError →
    ∃ b2, b.step r.1 c = Except.ok b2 ∧ (Good r.2 b2 ∨ Doomed r.2)

/-- The step functions inside a number or inside `true`, `false`, `null`. -/
def isLitStep : Step → Bool
  | Step.stateNeg | Step.state1 | Step.state0 | Step.stateDot | Step.stateDot0
  | Step.stateE | Step.stateESign | Step.stateE0
  | Step.stateT | Step.stateTr | Step.stateTru
  | Step.stateF | Step.stateFa | Step.stateFal | Step.stateFals
  | Step.stateN | Step.stateNu | Step.stateNul => true
  | _ => false

/-- The step functions inside a string. -/
def isStrStep : Step → Bool
  | Step.stateInString | Step.stateInStringEsc | Step.stateInStringEscU
  | Step.stateInStringEscU1 | Step.stateInStringEscU12 | Step.stateInStringEscU123 => true
  | _ => false

/-! ## Tool behaviours used as examples -/

/-- A scrape in which both invocations exit non-zero after printing
well-formed output. -/
def failedWithOutput : String → List String → CmdResult := fun _ args =>
  if args = ["state"] then
    ⟨bytesOf "\x7b\"State\":\"CONNECTED\"\x7d", some "exit status 1"⟩
  else
    ⟨bytesOf "[\x7b\"AdapterID\":\"eth0\",\"Type\":\"wired\",\"Priority\":\"always\"\x7d]",
      some "exit status 1"⟩

/-- A scrape in which both outputs are well-formed JSON that does not match
the records: a number where the state and the priority should be strings. -/
def mismatchedOutput : String → List String → CmdResult := fun _ args =>
  if args = ["state"] then
    ⟨bytesOf "\x7b\"State\":\"CONNECTED\",\"State\":1\x7d", none⟩
  else
    ⟨bytesOf "[\x7b\"AdapterID\":\"eth0\",\"Type\":\"wired\",\"Priority\":1\x7d]", none⟩

/-- The scrape of the spec's scenarios: connected, one wired adapter. -/
def scenarioOutput : String → List String → CmdResult := fun _ args =>
  if args = ["state"] then ⟨bytesOf "\x7b\"State\":\"CONNECTED\"\x7d", none⟩
  else
    ⟨bytesOf ("[\x7b\"AdapterID\":\"eth0\",\"Type\":\"wired\",\"Priority\":\"always\"," ++
      "\"State\":\"connected\",\"DataUsage\":\x7b\"UsageDaily\":1048576," ++
      "\"UsageMonthly\":52428800\x7d\x7d]"), none⟩

/-- A scrape in which both invocations fail without any output. -/
def failedWithoutOutput : String → List String → CmdResult := fun _ _ =>
  ⟨[], some "exit status 1"⟩

/-- A scrape in which both outputs are cut off in the middle. -/
def truncatedOutput : String → List String → CmdResult := fun _ args =>
  if args = ["state"] then ⟨bytesOf "\x7b\"State\":\"CONNEC", none⟩
  else ⟨bytesOf "[\x7b\"AdapterID\":\"eth0\",\"Type\":", none⟩

/-! ## `float64` -/

/-- The fuel of `log2Fuel` is never exhausted: with `fuel ≥ n` the result is
the floor of the base-2 logarithm of `n`. -/
theorem log2Fuel_eq : ∀ (fuel n : Nat), n ≤ fuel → log2Fuel fuel n = Nat.log2 n := by
  intro fuel
  induction fuel with
  | zero =>
    intro n h
    have : n = 0 := by omega
    subst this
    simp [log2Fuel, Nat.log2]
  | succ k ih =>
    intro n h
    rw [Nat.log2]
    simp only [log2Fuel]
    by_cases h2 : n < 2
    · have h4 : ¬ n ≥ 2 := by omega
      simp [h2, h4]
    · have h3 : n ≥ 2 := by omega
      simp only [h2, if_false, h3, if_true]
      rw [ih (n / 2) (by omega)]

/-! ## The enum-to-number mappings -/

/-- The `float64` literals `0 .. 4` returned by the mappings stand for the
numbers `0 .. 4`. -/
theorem Float64.toRat_literals :
    (0 : Float64).toRat = 0 ∧ (1 : Float64).toRat = 1 ∧ (2 : Float64).toRat = 2 ∧
    (3 : Float64).toRat = 3 ∧ (4 : Float64).toRat = 4 := by
  have h0 : (0 : Float64) = ⟨false, 0, 0⟩ := by decide
  have h1 : (1 : Float64) = ⟨false, 1023, 0⟩ := by decide
  have h2 : (2 : Float64) = ⟨false, 1024, 0⟩ := by decide
  have h3 : (3 : Float64) = ⟨false, 1024, 2 ^ 51⟩ := by decide
  have h4 : (4 : Float64) = ⟨false, 1025, 0⟩ := by decide
  rw [h0, h1, h2, h3, h4]
  refine ⟨?_, ?_, ?_, ?_, ?_⟩ <;> norm_num [Float64.toRat]

/-- C1: for every string `s`, `getStateMetric` on a record whose `State` is `s`
returns 0 for `LOGGED_OUT`, 1 for `LOGGED_IN`, 2 for `CONNECTED`, and 3 for
every other string; the empty string of the zero-value record and the
lower-case spelling `connected` are among the others. -/
theorem getStateMetric_mapping (s : String) :
    (s = "LOGGED_OUT" → (SpeedifyState.mk s).getStateMetric = 0) ∧
    (s = "LOGGED_IN" → (SpeedifyState.mk s).getStateMetric = 1) ∧
    (s = "CONNECTED" → (SpeedifyState.mk s).getStateMetric = 2) ∧
    (s ≠ "LOGGED_OUT" → s ≠ "LOGGED_IN" → s ≠ "CONNECTED" →
      (SpeedifyState.mk s).getStateMetric = 3) ∧
    ({} : SpeedifyState).getStateMetric = 3 ∧
    (SpeedifyState.mk "connected").getStateMetric = 3 := by
  refine ⟨?_, ?_, ?_, ?_, by decide, by decide⟩
  · rintro rfl; decide
  · rintro rfl; decide
  · rintro rfl; decide
  · intro h1 h2 h3; simp [SpeedifyState.getStateMetric, h1, h2, h3]

/-- The mapping of C1 at the three recognized strings and at an unrecognized
one. -/
theorem getStateMetric_mapping_witness :
    (SpeedifyState.mk "LOGGED_OUT").getStateMetric = 0 ∧
    (SpeedifyState.mk "LOGGED_IN").getStateMetric = 1 ∧
    (SpeedifyState.mk "CONNECTED").getStateMetric = 2 ∧
    (SpeedifyState.mk "Connected").getStateMetric = 3 :=
  ⟨(getStateMetric_mapping "LOGGED_OUT").1 rfl,
   (getStateMetric_mapping "LOGGED_IN").2.1 rfl,
   (getStateMetric_mapping "CONNECTED").2.2.1 rfl,
   (getStateMetric_mapping "Connected").2.2.2.1 (by decide) (by decide) (by decide)⟩

/-- C2: for every string `p`, `getPriorityMetric` on an adapter whose
`Priority` is `p` returns 0 for `never`, 1 for `always`, 2 for `secondary`,
3 for `backup`, and 4 for every other string; so the result is one of
0, 1, 2, 3, 4. -/
theorem getPriorityMetric_mapping (a : Adapter) :
    (a.Priority = "never" → a.getPriorityMetric = 0) ∧
    (a.Priority = "always" → a.getPriorityMetric = 1) ∧
    (a.Priority = "secondary" → a.getPriorityMetric = 2) ∧
    (a.Priority = "backup" → a.getPriorityMetric = 3) ∧
    (a.Priority ≠ "never" → a.Priority ≠ "always" → a.Priority ≠ "secondary" →
      a.Priority ≠ "backup" → a.getPriorityMetric = 4) ∧
    (a.getPriorityMetric = 0 ∨ a.getPriorityMetric = 1 ∨ a.getPriorityMetric = 2 ∨
      a.getPriorityMetric = 3 ∨ a.getPriorityMetric = 4) := by
  refine ⟨?_, ?_, ?_, ?_, ?_, ?_⟩
  · intro h; simp [Adapter.getPriorityMetric, h]
  · intro h; simp [Adapter.getPriorityMetric, h]
  · intro h; simp [Adapter.getPriorityMetric, h]
  · intro h; simp [Adapter.getPriorityMetric, h]
  · intro h1 h2 h3 h4; simp [Adapter.getPriorityMetric, h1, h2, h3, h4]
  · unfold Adapter.getPriorityMetric
    split_ifs <;> simp

/-- The mapping of C2 at the four recognized strings and at an unrecognized
one. -/
theorem getPriorityMetric_mapping_witness :
    ({ Priority := "never" } : Adapter).getPriorityMetric = 0 ∧
    ({ Priority := "always" } : Adapter).getPriorityMetric = 1 ∧
    ({ Priority := "secondary" } : Adapter).getPriorityMetric = 2 ∧
    ({ Priority := "backup" } : Adapter).getPriorityMetric = 3 ∧
    ({ Priority := "automatic" } : Adapter).getPriorityMetric = 4 :=
  ⟨(getPriorityMetric_mapping { Priority := "never" }).1 rfl,
   (getPriorityMetric_mapping { Priority := "always" }).2.1 rfl,
   (getPriorityMetric_mapping { Priority := "secondary" }).2.2.1 rfl,
   (getPriorityMetric_mapping { Priority := "backup" }).2.2.2.1 rfl,
   (getPriorityMetric_mapping { Priority := "automatic" }).2.2.2.2.1
     (by decide) (by decide) (by decide) (by decide)⟩

/-- C3: for every string `s`, `getStateMetric` on an adapter whose `State` is
`s` returns 0 for `disconnected`, 1 for `connected`, and 2 for every other
string; so the result is one of 0, 1, 2. -/
theorem adapter_getStateMetric_mapping (a : Adapter) :
    (a.State = "disconnected" → a.getStateMetric = 0) ∧
    (a.State = "connected" → a.getStateMetric = 1) ∧
    (a.State ≠ "disconnected" → a.State ≠ "connected" → a.getStateMetric = 2) ∧
    (a.getStateMetric = 0 ∨ a.getStateMetric = 1 ∨ a.getStateMetric = 2) := by
  refine ⟨?_, ?_, ?_, ?_⟩
  · intro h; simp [Adapter.getStateMetric, h]
  · intro h; simp [Adapter.getStateMetric, h]
  · intro h1 h2; simp [Adapter.getStateMetric, h1, h2]
  · unfold Adapter.getStateMetric
    split_ifs <;> simp

/-- The mapping of C3 at the two recognized strings and at an unrecognized
one. -/
theorem adapter_getStateMetric_mapping_witness :
    ({ State := "disconnected" } : Adapter).getStateMetric = 0 ∧
    ({ State := "connected" } : Adapter).getStateMetric = 1 ∧
    ({ State := "connecting" } : Adapter).getStateMetric = 2 :=
  ⟨(adapter_getStateMetric_mapping { State := "disconnected" }).1 rfl,
   (adapter_getStateMetric_mapping { State := "connected" }).2.1 rfl,
   (adapter_getStateMetric_mapping { State := "connecting" }).2.2.1 (by decide) (by decide)⟩

/-! ## The descriptors -/

/-- C7: `Describe` on the collector built in `main` sends one descriptor, the
one of `speedify_state`; none of the eight per-adapter descriptors that
`Collect` uses is sent, so the descriptors sent are not the nine the collector
holds. -/
theorem Describe_sends_only_stateMetric :
    mainCollector.Describe = [mainCollector.stateMetric] ∧
    mainCollector.Describe.length = 1 ∧
    mainCollector.descriptors.length = 9 ∧
    mainCollector.descriptors.Nodup ∧
    (∀ d ∈ mainCollector.descriptors.tail, d ∉ mainCollector.Describe) := by
  refine ⟨rfl, rfl, rfl, by decide, by decide⟩

/-- C8: each of the eight per-adapter descriptors built in `main` declares two
variable label names, `adpterId` and `adapterType` in that order; the first is
not `adapterId`. The descriptor of `speedify_state` declares none. -/
theorem adapter_descriptor_label_names :
    (∀ d ∈ mainCollector.descriptors.tail,
      d.variableLabels = ["adpterId", "adapterType"] ∧
      d.variableLabels ≠ ["adapterId", "adapterType"]) ∧
    mainCollector.descriptors.tail.length = 8 ∧
    mainCollector.stateMetric.variableLabels = [] ∧
    MakeLabelPairs mainCollector.adapterStateMetric ["eth0", "wired"] =
      [("adapterType", "wired"), ("adpterId", "eth0")] := by
  refine ⟨by decide, rfl, rfl, by decide⟩

/-! ## The samples of one adapter -/

/-- The eight samples sent for one adapter by the collector built in `main`:
no constructor call panics. -/
theorem collectAdapter_main (a : Adapter) :
    mainCollector.collectAdapter a = Except.ok
      [⟨mainCollector.adapterPriorityMetric, ValueType.CounterValue, a.getPriorityMetric,
          [a.AdapterID, a.«Type»]⟩,
       ⟨mainCollector.adapterStateMetric, ValueType.GaugeValue, a.getStateMetric,
          [a.AdapterID, a.«Type»]⟩,
       ⟨mainCollector.adpaterOverlimitRateLimitMetric, ValueType.GaugeValue,
          a.DataUsage.OverlimitRateLimit, [a.AdapterID, a.«Type»]⟩,
       ⟨mainCollector.adpaterUsageDailyMetric, ValueType.CounterValue,
          a.DataUsage.UsageDaily, [a.AdapterID, a.«Type»]⟩,
       ⟨mainCollector.adpaterUsageDailyBoostMetric, ValueType.GaugeValue,
          a.DataUsage.UsageDailyBoost, [a.AdapterID, a.«Type»]⟩,
       ⟨mainCollector.adapterUsageDailyLimitMetric, ValueType.GaugeValue,
          a.DataUsage.UsageDailyLimit, [a.AdapterID, a.«Type»]⟩,
       ⟨mainCollector.adpaterUsageMonthlyMetric, ValueType.CounterValue,
          a.DataUsage.UsageMonthly, [a.AdapterID, a.«Type»]⟩,
       ⟨mainCollector.adpaterUsageMonthlyLimitMetric, ValueType.GaugeValue,
          a.DataUsage.UsageMonthlyLimit, [a.AdapterID, a.«Type»]⟩] := by
  rfl

theorem collectAdapters_main (adapters : List Adapter) :
    mainCollector.collectAdapters adapters = Except.ok (adapterSamples adapters) := by
  induction adapters with
  | nil => rfl
  | cons a rest ih =>
    simp only [SpeedifyCollector.collectAdapters, collectAdapter_main, ih]
    rfl

/-! ## The decoder meets no unexpected scanner code

The scanner and the walk of `Builder` stay in step on every input that
`checkValid` accepts, so `parseValue` and `Unmarshal` never take the panic
branch. -/

theorem ch_vals : ch '"' = 34 ∧ ch '\\' = 92 ∧ ch 'u' = 117 ∧ ch 'b' = 98 ∧ ch 'f' = 102 ∧
    ch 'n' = 110 ∧ ch 'r' = 114 ∧ ch 't' = 116 ∧ ch '/' = 47 ∧
    ch '0' = 48 ∧ ch '9' = 57 ∧ ch 'a' = 97 ∧ ch 'A' = 65 ∧ ch 'F' = 70 := by
  decide

theorem strRun_plain (c : Nat) (rest : List Nat) (hc : 128 ≤ c) :
    strRun Step.stateInString (c :: rest) = strRun Step.stateInString rest := by
  have h1 : c ≠ 34 := by omega
  have h2 : c ≠ 92 := by omega
  have : ¬ c < 32 := by omega
  simp [strRun, strNext, ch_vals, h1, h2, this]

theorem acceptSecond_ge (c b1 : Nat) (h : acceptSecond c b1 = true) : 128 ≤ b1 := by
  unfold acceptSecond isCont at h
  split_ifs at h <;> simp at h <;> omega

theorem strRun_accept (c b1 : Nat) (r : List Nat) (h : acceptSecond c b1 = true) :
    strRun Step.stateInString (b1 :: r) = strRun Step.stateInString r :=
  strRun_plain b1 r (acceptSecond_ge c b1 h)

theorem strRun_cont (b : Nat) (r : List Nat) (h : isCont b = true) :
    strRun Step.stateInString (b :: r) = strRun Step.stateInString r := by
  apply strRun_plain
  simp [isCont] at h
  omega

theorem decodeRune_spec (c : Nat) (rest : List Nat) (hc : 128 ≤ c)
    (hrun : strRun Step.stateInString (c :: rest) = some Step.stateInString) :
    1 ≤ (decodeRune c rest).2 ∧
    strRun Step.stateInString ((c :: rest).drop (decodeRune c rest).2) =
      some Step.stateInString := by
  rw [strRun_plain c rest hc] at hrun
  rcases rest with _ | ⟨b1, _ | ⟨b2, _ | ⟨b3, rest3⟩⟩⟩ <;> simp only [decodeRune] <;>
    split_ifs <;> simp_all [strRun_accept c, strRun_cont]

theorem strRun_getu4 (s : List Nat) (rr : Nat) (h : getu4 s = some rr) :
    strRun Step.stateInString s = strRun Step.stateInString (s.drop 6) := by
  rcases s with _ | ⟨b, _ | ⟨u, _ | ⟨h1, _ | ⟨h2, _ | ⟨h3, _ | ⟨h4, rest⟩⟩⟩⟩⟩⟩ <;>
    simp [getu4] at h
  obtain ⟨⟨⟨⟨⟨⟨hb, hu⟩, g1⟩, g2⟩, g3⟩, g4⟩, _⟩ := h
  simp [strRun, strNext, ch_vals, hb, hu, g1, g2, g3, g4] at *

theorem strRun_nil (st : Step) : strRun st [] = some st := rfl

theorem strRun_U (c : Nat) (cs : List Nat) :
    strRun Step.stateInStringEscU (c :: cs) =
      if isHex c then strRun Step.stateInStringEscU1 cs else none := by
  cases h : isHex c <;> simp [strRun, strNext, h]

theorem strRun_U1 (c : Nat) (cs : List Nat) :
    strRun Step.stateInStringEscU1 (c :: cs) =
      if isHex c then strRun Step.stateInStringEscU12 cs else none := by
  cases h : isHex c <;> simp [strRun, strNext, h]

theorem strRun_U12 (c : Nat) (cs : List Nat) :
    strRun Step.stateInStringEscU12 (c :: cs) =
      if isHex c then strRun Step.stateInStringEscU123 cs else none := by
  cases h : isHex c <;> simp [strRun, strNext, h]

theorem strRun_U123 (c : Nat) (cs : List Nat) :
    strRun Step.stateInStringEscU123 (c :: cs) =
      if isHex c then strRun Step.stateInString cs else none := by
  cases h : isHex c <;> simp [strRun, strNext, h]

theorem strRun_backslash (cs : List Nat) :
    strRun Step.stateInString (92 :: cs) = strRun Step.stateInStringEsc cs := by
  simp [strRun, strNext, ch_vals]

theorem strRun_esc_u (cs : List Nat) :
    strRun Step.stateInStringEsc (117 :: cs) = strRun Step.stateInStringEscU cs := by
  simp [strRun, strNext, ch_vals]

theorem getu4_of_run (rest1 : List Nat)
    (h : strRun Step.stateInString (92 :: 117 :: rest1) = some Step.stateInString) :
    ∃ rr, getu4 (92 :: 117 :: rest1) = some rr := by
  rw [strRun_backslash, strRun_esc_u] at h
  rcases rest1 with _ | ⟨h1, _ | ⟨h2, _ | ⟨h3, _ | ⟨h4, rest⟩⟩⟩⟩ <;>
    simp only [strRun_U, strRun_U1, strRun_U12, strRun_U123, strRun_nil] at h
  · simp at h
  · split_ifs at h
    simp at h
  · split_ifs at h
    simp at h
  · split_ifs at h
    simp at h
  · split_ifs at h with g1 g2 g3 g4
    simp [getu4, ch_vals, g1, g2, g3, g4]

theorem strRun_esc_simple (e : Nat) (cs : List Nat) (he : e ≠ 117)
    (h : strRun Step.stateInStringEsc (e :: cs) = some Step.stateInString) :
    (e = 98 ∨ e = 102 ∨ e = 110 ∨ e = 114 ∨ e = 116 ∨ e = 92 ∨ e = 47 ∨ e = 34) ∧
    strRun Step.stateInString cs = some Step.stateInString := by
  simp only [strRun, strNext, ch_vals] at h
  split_ifs at h with h1 h2
  · simp at h1
    exact ⟨by omega, h⟩
  · simp at h2; omega

theorem unquoteOne_ok (c : Nat) (rest : List Nat)
    (hrun : strRun Step.stateInString (c :: rest) = some Step.stateInString) :
    ∃ r k, unquoteOne (c :: rest) = some (r, k) ∧ 1 ≤ k ∧
      strRun Step.stateInString ((c :: rest).drop k) = some Step.stateInString := by
  by_cases hc : c = 92
  · subst hc
    cases rest with
    | nil => simp [strRun_backslash, strRun_nil] at hrun
    | cons e rest1 =>
      by_cases he : e = 117
      · subst he
        obtain ⟨rr, hrr⟩ := getu4_of_run rest1 hrun
        have h6 := strRun_getu4 _ rr hrr
        rw [h6] at hrun
        simp only [unquoteOne, ch_vals, hrr, beq_self_eq_true, if_true]
        split_ifs with hs
        · cases hg : getu4 (List.drop 6 (92 :: 117 :: rest1)) with
          | none => exact ⟨_, _, rfl, by omega, hrun⟩
          | some rr1 =>
            have h12 := strRun_getu4 _ rr1 hg
            rw [h12, List.drop_drop] at hrun
            simp only []
            split_ifs
            · exact ⟨_, _, rfl, by omega, hrun⟩
            · rw [← List.drop_drop, ← h12] at hrun
              exact ⟨_, _, rfl, by omega, hrun⟩
        · exact ⟨_, _, rfl, by omega, hrun⟩
      · rw [strRun_backslash] at hrun
        obtain ⟨hv, hr⟩ := strRun_esc_simple e rest1 he hrun
        simp only [unquoteOne, ch_vals, beq_self_eq_true, if_true]
        have h117 : (e == 117) = false := by simpa using he
        simp only [h117]
        rcases hv with h | h | h | h | h | h | h | h <;> subst h <;>
          exact ⟨_, _, rfl, by omega, hr⟩
  · have hb : (c == 92) = false := by simpa using hc
    simp only [strRun, strNext, ch_vals, hb] at hrun
    simp only [unquoteOne, ch_vals, hb]
    by_cases hq : c = 34
    · simp [hq] at hrun
    · have hq2 : (c == 34) = false := by simpa using hq
      by_cases hl : c < 32
      · simp [hq2, hl] at hrun
      · simp only [hq2, hl] at hrun ⊢
        simp only [Bool.false_eq_true, if_false, decide_False, Bool.or_false] at hrun ⊢
        by_cases h7 : c < 128
        · simp only [h7, if_true]
          exact ⟨_, _, rfl, by omega, by simpa using hrun⟩
        · simp only [h7, if_false]
          have hge : 128 ≤ c := by omega
          have hr2 : strRun Step.stateInString (c :: rest) = some Step.stateInString := by
            rw [strRun_plain c rest hge]; exact hrun
          obtain ⟨h1, h2⟩ := decodeRune_spec c rest hge hr2
          exact ⟨_, _, rfl, h1, h2⟩

theorem unquoteLoop_ok : ∀ (fuel : Nat) (body : List Nat), body.length ≤ fuel →
    strRun Step.stateInString body = some Step.stateInString →
    ∃ t, unquoteLoop fuel body = some t := by
  intro fuel
  induction fuel with
  | zero =>
    intro body hlen _
    cases body with
    | nil => exact ⟨[], rfl⟩
    | cons c rest => simp at hlen
  | succ n ih =>
    intro body hlen hrun
    cases body with
    | nil => exact ⟨[], rfl⟩
    | cons c rest =>
      obtain ⟨r, k, hone, hk, hrest⟩ := unquoteOne_ok c rest hrun
      have hlen2 : ((c :: rest).drop k).length ≤ n := by
        simp only [List.length_drop, List.length_cons] at hlen ⊢
        omega
      obtain ⟨t, ht⟩ := ih _ hlen2 hrest
      exact ⟨r :: t, by simp only [unquoteLoop, hone, ht]⟩

theorem unquoteBody_ok (body : List Nat)
    (hrun : strRun Step.stateInString body = some Step.stateInString) :
    ∃ t, unquoteBody body = some t :=
  unquoteLoop_ok body.length body (Nat.le_refl _) hrun

theorem unquote_ok (body : List Nat)
    (hrun : strRun Step.stateInString body = some Step.stateInString) :
    ∃ t, unquote (34 :: (body ++ [34])) = some t := by
  obtain ⟨t, ht⟩ := unquoteBody_ok body hrun
  refine ⟨String.mk t, ?_⟩
  simp [unquote, ch_vals, ht]

theorem Suspended.stackInv : ∀ {pss : List ParseState} {fs : List Frame},
    Suspended pss fs → StackInv pss fs
  | [], [], _ => trivial
  | _ :: _, _ :: _, h => ⟨h.2.1, h.2.2⟩
  | [], _ :: _, h => h.elim
  | _ :: _, [], h => h.elim

theorem Builder.step_of_finish (b b1 : Builder) (op : Opcode) (c : Nat)
    (hop : op ≠ Opcode.scanContinue) (hf : b.finishLiteral = Except.ok b1) :
    b.step op c = b1.act op c := by
  cases op <;> simp_all [Builder.step]

theorem Builder.finishLiteral_none (b : Builder) (h : b.lit = none) :
    b.finishLiteral = Except.ok b := by
  simp [Builder.finishLiteral, h]

theorem ch_vals2 : ch ':' = 58 ∧ ch ',' = 44 ∧ ch '}' = 125 ∧ ch ']' = 93 ∧ ch '{' = 123 ∧
    ch '[' = 91 ∧ ch '-' = 45 ∧ ch '.' = 46 ∧ ch 'e' = 101 ∧ ch 'E' = 69 ∧ ch '+' = 43 ∧
    ch ' ' = 32 ∧ ch '\t' = 9 ∧ ch '\r' = 13 ∧ ch '\n' = 10 ∧ ch '1' = 49 ∧ ch 'l' = 108 ∧
    ch 's' = 115 := by
  decide

theorem pop_good (step : Step) (ps : ParseState) (rest : List ParseState) (fs : List Frame)
    (v : JValue) (hsusp : Suspended rest fs) :
    Good (Scanner.popParseState ⟨step, ps :: rest, false, false⟩) ⟨none, some v, fs⟩ := by
  cases rest with
  | nil =>
    cases fs with
    | nil => exact ⟨rfl, by simp [Scanner.popParseState], ⟨rfl, rfl, rfl, v, rfl⟩⟩
    | cons f fs => exact hsusp.elim
  | cons p rest =>
    refine ⟨rfl, by simp [Scanner.popParseState], ?_⟩
    exact ⟨_, v, Builder.finishLiteral_none _ rfl, rfl, rfl, rfl, Or.inl hsusp⟩

theorem endValue_ok (s : Scanner) (b1 : Builder) (c : Nat) (v : JValue)
    (herr : s.err = false) (htop : s.endTop = false)
    (hdone : b1.done = some v) (hlit : b1.lit = none)
    (hst : Suspended s.parseState b1.stack ∨
      (StackInv s.parseState b1.stack ∧ ∃ k, v = JValue.string k))
    (hop : (stateEndValue s c).1 ≠ Opcode.scanError) :
    (stateEndValue s c).1 ≠ Opcode.scanContinue ∧
    ∃ b2, b1.act (stateEndValue s c).1 c = Except.ok b2 ∧
      (Good (stateEndValue s c).2 b2 ∨ Doomed (stateEndValue s c).2) := by
  obtain ⟨step, pss, endTop, err⟩ := s
  obtain ⟨lit, done, stack⟩ := b1
  simp only at herr htop hdone hlit hst
  subst herr htop hdone hlit
  cases pss with
  | nil =>
    cases stack with
    | cons f fs => rcases hst with h | ⟨h, _⟩ <;> exact h.elim
    | nil =>
      by_cases hsp : isSpace c = true
      · simp [stateEndValue, stateEndTop, hsp, Builder.act]
        left
        exact ⟨rfl, by simp, by simp [StepInv]⟩
      · simp [stateEndValue, stateEndTop, hsp, Builder.act, Scanner.error]
        right
        exact ⟨rfl, rfl⟩
  | cons ps rest =>
    cases stack with
    | nil => rcases hst with h | ⟨h, _⟩ <;> exact h.elim
    | cons f fs =>
      have hsusp : Suspended rest fs := by
        rcases hst with h | ⟨h, _⟩
        · exact h.2.2
        · exact h.2
      have hframe : FrameOK ps f := by
        rcases hst with h | ⟨h, _⟩
        · exact h.2.1
        · exact h.1
      by_cases hsp : isSpace c = true
      · simp only [stateEndValue, hsp, if_true]
        refine ⟨by simp, ⟨none, some v, f :: fs⟩, by simp [Builder.act], Or.inl ⟨rfl, by simp, ?_⟩⟩
        refine ⟨_, v, Builder.finishLiteral_none _ rfl, rfl, rfl, rfl, hst⟩
      · simp only [stateEndValue, hsp] at hop ⊢
        cases ps with
        | parseObjectKey =>
          have hk : ∃ k, v = JValue.string k := by
            rcases hst with h | ⟨_, h⟩
            · exact absurd rfl h.1
            · exact h
          obtain ⟨k, rfl⟩ := hk
          cases f with
          | arr elems => exact hframe.elim
          | obj members key =>
            cases key with
            | some k2 => exact hframe.elim
            | none =>
              by_cases h1 : (c == ch ':') = true
              · simp only [h1, if_true, Bool.false_eq_true, if_false]
                refine ⟨by simp, _, rfl, Or.inl ⟨rfl, by simp, ?_⟩⟩
                exact ⟨rfl, rfl, by simp, trivial, hsusp⟩
              · simp [h1, Scanner.error] at hop
        | parseObjectValue =>
          cases f with
          | arr elems => exact hframe.elim
          | obj members key =>
            cases key with
            | none => exact hframe.elim
            | some k2 =>
              by_cases h1 : (c == ch ',') = true
              · simp only [h1, if_true, Bool.false_eq_true, if_false]
                refine ⟨by simp, _, rfl, Or.inl ⟨rfl, by simp, ?_⟩⟩
                exact ⟨rfl, rfl, trivial, hsusp⟩
              · by_cases h2 : (c == ch '}') = true
                · simp only [h1, h2, if_true, Bool.false_eq_true, if_false]
                  exact ⟨by simp, _, rfl, Or.inl (pop_good _ _ _ _ _ hsusp)⟩
                · simp [h1, h2, Scanner.error] at hop
        | parseArrayValue =>
          cases f with
          | obj members key => cases key <;> exact hframe.elim
          | arr elems =>
            by_cases h1 : (c == ch ',') = true
            · simp only [h1, if_true, Bool.false_eq_true, if_false]
              refine ⟨by simp, _, rfl, Or.inl ⟨rfl, by simp, ?_⟩⟩
              exact ⟨rfl, rfl, by simp, trivial, hsusp⟩
            · by_cases h2 : (c == ch ']') = true
              · simp only [h1, h2, if_true, Bool.false_eq_true, if_false]
                exact ⟨by simp, _, rfl, Or.inl (pop_good _ _ _ _ _ hsusp)⟩
              · simp [h1, h2, Scanner.error] at hop

theorem StepOK.error (b : Builder) (c : Nat) (s : Scanner) : StepOK b c s.error :=
  fun h => absurd rfl h

theorem NonStringLit.cons {rev : List Nat} (h : NonStringLit rev) (c : Nat) :
    NonStringLit (c :: rev) := by
  obtain ⟨c0, tl, h1, h2⟩ := h
  exact ⟨c0, tl ++ [c], by simp [h1], h2⟩

theorem literalValue_nonString {rev : List Nat} (h : NonStringLit rev) :
    ∃ v, literalValue rev.reverse = Except.ok v := by
  obtain ⟨c0, tl, h1, h2⟩ := h
  rw [h1]
  simp only [literalValue, ch_vals, ch_vals2, isDigit]
  rcases h2 with h | h | h | h | h
  · subst h; exact ⟨_, rfl⟩
  · subst h; exact ⟨_, rfl⟩
  · subst h; exact ⟨_, rfl⟩
  · subst h; exact ⟨_, rfl⟩
  · split_ifs <;> first | exact ⟨_, rfl⟩ | simp_all

theorem StepOK.lit_continue (st : Step) (pss : List ParseState) (b : Builder) (c : Nat)
    (rev : List Nat) (hlit : b.lit = some rev) (hns : NonStringLit rev)
    (hsusp : Suspended pss b.stack)
    (hst : isLitStep st = true ∨ st = Step.stateEndValue) :
    StepOK b c (Opcode.scanContinue, ⟨st, pss, false, false⟩) := by
  intro _
  refine ⟨{ b with lit := some (c :: rev) }, by simp [Builder.step, hlit], Or.inl ?_⟩
  rcases hst with hst | hst
  · refine ⟨rfl, ?_, ?_⟩
    · cases st <;> simp_all [isLitStep]
    · cases st <;> simp [isLitStep] at hst <;>
        exact ⟨hsusp, _, rfl, hns.cons c⟩
  · subst hst
    refine ⟨rfl, by simp, ?_⟩
    obtain ⟨v, hv⟩ := literalValue_nonString (hns.cons c)
    refine ⟨⟨none, some v, b.stack⟩, v, ?_, rfl, rfl, rfl, Or.inl hsusp⟩
    simp only [Builder.finishLiteral, hv]

theorem Ready.of_nonString {pss : List ParseState} {b : Builder} {rev : List Nat}
    (hlit : b.lit = some rev) (hns : NonStringLit rev) (hsusp : Suspended pss b.stack) :
    Ready pss b := by
  obtain ⟨v, hv⟩ := literalValue_nonString hns
  refine ⟨⟨none, some v, b.stack⟩, v, ?_, rfl, rfl, rfl, Or.inl hsusp⟩
  simp only [Builder.finishLiteral, hlit, hv]

theorem StepOK.ready_endValue (st : Step) (pss : List ParseState) (b : Builder) (c : Nat)
    (hr : Ready pss b) : StepOK b c (stateEndValue ⟨st, pss, false, false⟩ c) := by
  obtain ⟨b1, v, hf, hdone, hlit, hstack, hst⟩ := hr
  intro hop
  rw [← hstack] at hst
  obtain ⟨hne, b2, hact, hgood⟩ := endValue_ok ⟨st, pss, false, false⟩ b1 c v rfl rfl hdone hlit hst hop
  exact ⟨b2, by rw [Builder.step_of_finish b b1 _ c hne hf]; exact hact, hgood⟩

theorem StepOK.lit_endValue (st : Step) (pss : List ParseState) (b : Builder) (c : Nat)
    (rev : List Nat) (hlit : b.lit = some rev) (hns : NonStringLit rev)
    (hsusp : Suspended pss b.stack) :
    StepOK b c (stateEndValue ⟨st, pss, false, false⟩ c) :=
  StepOK.ready_endValue st pss b c (Ready.of_nonString hlit hns hsusp)

theorem StepOK.str_continue (st : Step) (pss : List ParseState) (b : Builder) (c : Nat)
    (rev body : List Nat) (hstack : StackInv pss b.stack) (hlit : b.lit = some rev)
    (hrev : rev.reverse = 34 :: body) (hstr : isStrStep st = true)
    (hrun : strRun Step.stateInString (body ++ [c]) = some st) :
    StepOK b c (Opcode.scanContinue, ⟨st, pss, false, false⟩) := by
  intro _
  refine ⟨{ b with lit := some (c :: rev) }, by simp [Builder.step, hlit], Or.inl ?_⟩
  refine ⟨rfl, ?_, ?_⟩
  · cases st <;> simp_all [isStrStep]
  · cases st <;> simp [isStrStep] at hstr <;>
      exact ⟨hstack, c :: rev, body ++ [c], rfl, by simp [hrev], hrun⟩

theorem strRun_append (st : Step) (body : List Nat) (c : Nat) :
    strRun st (body ++ [c]) =
      match strRun st body with
      | some st1 => strNext st1 c
      | none => none := by
  induction body generalizing st with
  | nil =>
    simp only [List.nil_append, strRun]
    cases strNext st c <;> rfl
  | cons d ds ih =>
    simp only [List.cons_append, strRun]
    cases strNext st d with
    | none => rfl
    | some st1 => exact ih st1

theorem StepOK.str_close (pss : List ParseState) (b : Builder) (c : Nat)
    (rev body : List Nat) (hstack : StackInv pss b.stack) (hlit : b.lit = some rev)
    (hrev : rev.reverse = 34 :: body) (hc : c = 34)
    (hrun : strRun Step.stateInString body = some Step.stateInString) :
    StepOK b c (Opcode.scanContinue, ⟨Step.stateEndValue, pss, false, false⟩) := by
  intro _
  subst hc
  refine ⟨{ b with lit := some (34 :: rev) }, by simp [Builder.step, hlit], Or.inl ?_⟩
  refine ⟨rfl, by simp, ?_⟩
  obtain ⟨t, ht⟩ := unquote_ok body hrun
  have hv : literalValue (34 :: rev).reverse = Except.ok (JValue.string t) := by
    simp only [List.reverse_cons, hrev, List.cons_append, literalValue, ch_vals, ch_vals2]
    simp [ht]
  refine ⟨⟨none, some (JValue.string t), b.stack⟩, _, ?_, rfl, rfl, rfl, Or.inr ⟨hstack, t, rfl⟩⟩
  simp only [Builder.finishLiteral, hv]

theorem run_ok_lit (st : Step) (pss : List ParseState) (b : Builder) (c : Nat)
    (rev : List Nat) (hst : isLitStep st = true) (hlit : b.lit = some rev)
    (hns : NonStringLit rev) (hsusp : Suspended pss b.stack) :
    StepOK b c (Scanner.run ⟨st, pss, false, false⟩ c) := by
  cases st <;> simp [isLitStep] at hst <;>
    simp only [Scanner.run, stateNeg, state1, state0, stateDot, stateDot0, stateE,
      stateESign, stateE0, stateLetter] <;>
    split_ifs <;>
    first
    | exact StepOK.error _ _ _
    | exact StepOK.lit_endValue _ _ _ _ rev hlit hns hsusp
    | exact StepOK.lit_continue _ _ _ _ rev hlit hns hsusp (by simp [isLitStep])

theorem run_ok_str (st : Step) (pss : List ParseState) (b : Builder) (c : Nat)
    (rev body : List Nat) (hst : isStrStep st = true) (hstack : StackInv pss b.stack)
    (hlit : b.lit = some rev) (hrev : rev.reverse = 34 :: body)
    (hrun : strRun Step.stateInString body = some st) :
    StepOK b c (Scanner.run ⟨st, pss, false, false⟩ c) := by
  cases st <;> simp [isStrStep] at hst <;>
    simp only [Scanner.run, stateInString, stateInStringEsc, stateHexDigit] <;>
    split_ifs with h1 <;>
    first
    | exact StepOK.error _ _ _
    | exact StepOK.str_close _ _ _ rev body hstack hlit hrev (by simpa [ch_vals] using h1) hrun
    | exact StepOK.str_continue _ _ _ _ rev body hstack hlit hrev (by simp [isStrStep])
        (by rw [strRun_append, hrun]; simp_all [strNext])

theorem StepOK.skip (st : Step) (pss : List ParseState) (b : Builder) (c : Nat)
    (op : Opcode) (hop : op = Opcode.scanSkipSpace ∨ op = Opcode.scanEnd)
    (hlit : b.lit = none) (hg : Good ⟨st, pss, false, false⟩ b) :
    StepOK b c (op, ⟨st, pss, false, false⟩) := by
  intro _
  refine ⟨b, ?_, Or.inl hg⟩
  rcases hop with h | h <;> subst h <;>
    simp [Builder.step, Builder.finishLiteral, hlit, Builder.act]

theorem StepOK.begin_lit (st : Step) (pss : List ParseState) (b : Builder) (c : Nat)
    (hst : isLitStep st = true) (hlit : b.lit = none) (hsusp : Suspended pss b.stack)
    (hc : c = 110 ∨ c = 116 ∨ c = 102 ∨ c = 45 ∨ (48 ≤ c ∧ c ≤ 57)) :
    StepOK b c (Opcode.scanBeginLiteral, ⟨st, pss, false, false⟩) := by
  intro _
  refine ⟨{ b with lit := some [c] }, ?_, Or.inl ⟨rfl, ?_, ?_⟩⟩
  · simp [Builder.step, Builder.finishLiteral, hlit, Builder.act]
  · cases st <;> simp_all [isLitStep]
  · cases st <;> simp [isLitStep] at hst <;>
      exact ⟨hsusp, [c], rfl, c, [], rfl, hc⟩

theorem StepOK.begin_str (pss : List ParseState) (b : Builder) (c : Nat)
    (hlit : b.lit = none) (hstack : StackInv pss b.stack) (hc : c = 34) :
    StepOK b c (Opcode.scanBeginLiteral, ⟨Step.stateInString, pss, false, false⟩) := by
  intro _
  subst hc
  refine ⟨{ b with lit := some [34] }, ?_, Or.inl ⟨rfl, by simp, ?_⟩⟩
  · simp [Builder.step, Builder.finishLiteral, hlit, Builder.act]
  · exact ⟨hstack, [34], [], rfl, rfl, rfl⟩

theorem StepOK.push_obj (pss : List ParseState) (b : Builder) (c : Nat)
    (hlit : b.lit = none) (hsusp : Suspended pss b.stack) :
    StepOK b c
      (Scanner.pushParseState ⟨Step.stateBeginStringOrEmpty, pss, false, false⟩
        ParseState.parseObjectKey Opcode.scanBeginObject) := by
  simp only [Scanner.pushParseState]
  split_ifs
  · intro _
    refine ⟨{ b with done := none, stack := Frame.obj [] none :: b.stack }, ?_,
      Or.inl ⟨rfl, by simp, ?_⟩⟩
    · simp [Builder.step, Builder.finishLiteral, hlit, Builder.act]
    · exact ⟨hlit, rfl, ⟨trivial, hsusp⟩, pss, rfl⟩
  · exact StepOK.error _ _ _

theorem StepOK.push_arr (pss : List ParseState) (b : Builder) (c : Nat)
    (hlit : b.lit = none) (hsusp : Suspended pss b.stack) :
    StepOK b c
      (Scanner.pushParseState ⟨Step.stateBeginValueOrEmpty, pss, false, false⟩
        ParseState.parseArrayValue Opcode.scanBeginArray) := by
  simp only [Scanner.pushParseState]
  split_ifs
  · intro _
    refine ⟨{ b with done := none, stack := Frame.arr [] :: b.stack }, ?_,
      Or.inl ⟨rfl, by simp, ?_⟩⟩
    · simp [Builder.step, Builder.finishLiteral, hlit, Builder.act]
    · exact ⟨hlit, rfl, by simp, trivial, hsusp⟩
  · exact StepOK.error _ _ _

theorem beginValue_ok (st : Step) (pss : List ParseState) (b : Builder) (c : Nat)
    (hst : st = Step.stateBeginValue ∨ st = Step.stateBeginValueOrEmpty)
    (hlit : b.lit = none) (hdone : b.done = none) (hsusp : Suspended pss b.stack) :
    StepOK b c (stateBeginValue ⟨st, pss, false, false⟩ c) := by
  have hg : Good ⟨st, pss, false, false⟩ b := by
    rcases hst with h | h <;> subst h <;> exact ⟨rfl, by simp, hlit, hdone, hsusp⟩
  simp only [stateBeginValue, ch_vals, ch_vals2]
  by_cases h0 : isSpace c = true
  · rw [if_pos h0]
    exact StepOK.skip st pss b c _ (Or.inl rfl) hlit hg
  rw [if_neg h0]
  by_cases h1 : (c == 123) = true
  · rw [if_pos h1]
    exact StepOK.push_obj pss b c hlit hsusp
  rw [if_neg h1]
  by_cases h2 : (c == 91) = true
  · rw [if_pos h2]
    exact StepOK.push_arr pss b c hlit hsusp
  rw [if_neg h2]
  by_cases h3 : (c == 34) = true
  · rw [if_pos h3]
    exact StepOK.begin_str pss b c hlit hsusp.stackInv (by simpa using h3)
  rw [if_neg h3]
  by_cases h4 : (c == 45) = true
  · rw [if_pos h4]
    exact StepOK.begin_lit _ pss b c (by simp [isLitStep]) hlit hsusp (by simp at h4; omega)
  rw [if_neg h4]
  by_cases h5 : (c == 48) = true
  · rw [if_pos h5]
    exact StepOK.begin_lit _ pss b c (by simp [isLitStep]) hlit hsusp (by simp at h5; omega)
  rw [if_neg h5]
  by_cases h6 : (c == 116) = true
  · rw [if_pos h6]
    exact StepOK.begin_lit _ pss b c (by simp [isLitStep]) hlit hsusp (by simp at h6; omega)
  rw [if_neg h6]
  by_cases h7 : (c == 102) = true
  · rw [if_pos h7]
    exact StepOK.begin_lit _ pss b c (by simp [isLitStep]) hlit hsusp (by simp at h7; omega)
  rw [if_neg h7]
  by_cases h8 : (c == 110) = true
  · rw [if_pos h8]
    exact StepOK.begin_lit _ pss b c (by simp [isLitStep]) hlit hsusp (by simp at h8; omega)
  rw [if_neg h8]
  by_cases h9 : (decide (49 ≤ c) && decide (c ≤ 57)) = true
  · rw [if_pos h9]
    exact StepOK.begin_lit _ pss b c (by simp [isLitStep]) hlit hsusp (by simp at h9; omega)
  rw [if_neg h9]
  exact StepOK.error _ _ _

theorem StepOK.doomed_end (b : Builder) (c : Nat) (s : Scanner) (hlit : b.lit = none) :
    StepOK b c (Opcode.scanEnd, s.error.2) := by
  intro _
  exact ⟨b, by simp [Builder.step, Builder.finishLiteral, hlit, Builder.act],
    Or.inr ⟨rfl, rfl⟩⟩

theorem endValue_empty_arr (st : Step) (pss : List ParseState) (b : Builder)
    (hlit : b.lit = none) (hdone : b.done = none) (hsusp : Suspended pss b.stack) :
    StepOK b 93 (stateEndValue ⟨st, pss, false, false⟩ 93) := by
  have hsp : isSpace 93 = false := by decide
  have h1 : ((93 : Nat) == ch ',') = false := by decide
  have h2 : ((93 : Nat) == ch '}') = false := by decide
  have h3 : ((93 : Nat) == ch ']') = true := by decide
  obtain ⟨lit, done, stack⟩ := b
  simp only at hlit hdone hsusp
  subst hlit hdone
  cases pss with
  | nil =>
    simp only [stateEndValue, stateEndTop, hsp]
    exact StepOK.doomed_end _ _ _ rfl
  | cons ps rest =>
    cases stack with
    | nil => exact hsusp.elim
    | cons f fs =>
      obtain ⟨hne, hframe, hrest⟩ := hsusp
      cases ps with
      | parseObjectKey => exact absurd rfl hne
      | parseObjectValue =>
        simp only [stateEndValue, hsp, h1, h2]
        exact StepOK.error _ _ _
      | parseArrayValue =>
        cases f with
        | obj members key => cases key <;> exact hframe.elim
        | arr elems =>
          simp only [stateEndValue, hsp, h1, h3]
          intro _
          exact ⟨⟨none, some (JValue.array elems), fs⟩, rfl, Or.inl (pop_good _ _ _ _ _ hrest)⟩

theorem endValue_empty_obj (st : Step) (rest : List ParseState) (b : Builder)
    (hlit : b.lit = none) (hdone : b.done = none)
    (hstack : StackInv (ParseState.parseObjectKey :: rest) b.stack) :
    StepOK b 125
      (stateEndValue ⟨st, ParseState.parseObjectValue :: rest, false, false⟩ 125) := by
  have hsp : isSpace 125 = false := by decide
  have h1 : ((125 : Nat) == ch ',') = false := by decide
  have h2 : ((125 : Nat) == ch '}') = true := by decide
  obtain ⟨lit, done, stack⟩ := b
  simp only at hlit hdone hstack
  subst hlit hdone
  cases stack with
  | nil => exact hstack.elim
  | cons f fs =>
    obtain ⟨hframe, hrest⟩ := hstack
    cases f with
    | arr elems => exact hframe.elim
    | obj members key =>
      cases key with
      | some k => exact hframe.elim
      | none =>
        simp only [stateEndValue, hsp, h1, h2]
        intro _
        exact ⟨⟨none, some (JValue.object members), fs⟩, rfl,
          Or.inl (pop_good _ _ _ _ _ hrest)⟩

theorem StepInv.lit {st : Step} {pss : List ParseState} {e r : Bool} {b : Builder}
    (hst : isLitStep st = true) (h : StepInv ⟨st, pss, e, r⟩ b) :
    Suspended pss b.stack ∧ ∃ rev, b.lit = some rev ∧ NonStringLit rev := by
  cases st <;> simp [isLitStep] at hst <;> exact h

theorem StepInv.str {st : Step} {pss : List ParseState} {e r : Bool} {b : Builder}
    (hst : isStrStep st = true) (h : StepInv ⟨st, pss, e, r⟩ b) :
    StackInv pss b.stack ∧ ∃ rev body, b.lit = some rev ∧ rev.reverse = 34 :: body ∧
      strRun Step.stateInString body = some st := by
  cases st <;> simp [isStrStep] at hst <;> exact h

theorem run_ok (s : Scanner) (b : Builder) (c : Nat) (hg : Good s b) :
    StepOK b c (s.run c) := by
  obtain ⟨st, pss, endTop, err⟩ := s
  obtain ⟨hne, htop, hinv⟩ := hg
  simp only at hne htop
  subst hne
  by_cases hl : isLitStep st = true
  · have he : endTop = false := by
      cases endTop
      · rfl
      · rw [htop.mp rfl] at hl; simp [isLitStep] at hl
    subst he
    obtain ⟨hsusp, rev, hlit, hns⟩ := hinv.lit hl
    exact run_ok_lit st pss b c rev hl hlit hns hsusp
  by_cases hs : isStrStep st = true
  · have he : endTop = false := by
      cases endTop
      · rfl
      · rw [htop.mp rfl] at hs; simp [isStrStep] at hs
    subst he
    obtain ⟨hstack, rev, body, hlit, hrev, hrun⟩ := hinv.str hs
    exact run_ok_str st pss b c rev body hs hstack hlit hrev hrun
  cases st <;> simp [isLitStep] at hl <;> simp [isStrStep] at hs
  ·
    have he : endTop = false := by simpa using htop
    subst he
    obtain ⟨hlit, hdone, hsusp⟩ := hinv
    simp only [Scanner.run, stateBeginValueOrEmpty]
    by_cases h0 : isSpace c = true
    · rw [if_pos h0]
      exact StepOK.skip _ pss b c _ (Or.inl rfl) hlit ⟨rfl, by simp, hlit, hdone, hsusp⟩
    rw [if_neg h0]
    by_cases h1 : (c == ch ']') = true
    · rw [if_pos h1]
      have hc : c = 93 := by simpa [ch_vals2] using h1
      subst hc
      exact endValue_empty_arr _ pss b hlit hdone hsusp
    rw [if_neg h1]
    exact beginValue_ok _ pss b c (Or.inr rfl) hlit hdone hsusp
  ·
    have he : endTop = false := by simpa using htop
    subst he
    obtain ⟨hlit, hdone, hsusp⟩ := hinv
    exact beginValue_ok _ pss b c (Or.inl rfl) hlit hdone hsusp
  ·
    have he : endTop = false := by simpa using htop
    subst he
    obtain ⟨hlit, hdone, hstack, rest, hpss⟩ := hinv
    simp only at hpss hstack
    subst hpss
    simp only [Scanner.run, stateBeginStringOrEmpty, stateBeginString]
    by_cases h0 : isSpace c = true
    · rw [if_pos h0]
      exact StepOK.skip _ _ b c _ (Or.inl rfl) hlit
        ⟨rfl, by simp, hlit, hdone, hstack, rest, rfl⟩
    rw [if_neg h0]
    by_cases h1 : (c == ch '}') = true
    · rw [if_pos h1]
      have hc : c = 125 := by simpa [ch_vals2] using h1
      subst hc
      exact endValue_empty_obj _ rest b hlit hdone hstack
    rw [if_neg h1, if_neg h0]
    by_cases h2 : (c == ch '"') = true
    · rw [if_pos h2]
      exact StepOK.begin_str _ b c hlit hstack (by simpa [ch_vals] using h2)
    rw [if_neg h2]
    exact StepOK.error _ _ _
  ·
    have he : endTop = false := by simpa using htop
    subst he
    obtain ⟨hlit, hdone, hstack⟩ := hinv
    simp only [Scanner.run, stateBeginString]
    by_cases h0 : isSpace c = true
    · rw [if_pos h0]
      exact StepOK.skip _ _ b c _ (Or.inl rfl) hlit ⟨rfl, by simp, hlit, hdone, hstack⟩
    rw [if_neg h0]
    by_cases h2 : (c == ch '"') = true
    · rw [if_pos h2]
      exact StepOK.begin_str _ b c hlit hstack (by simpa [ch_vals] using h2)
    rw [if_neg h2]
    exact StepOK.error _ _ _
  ·
    have he : endTop = false := by simpa using htop
    subst he
    exact StepOK.ready_endValue _ pss b c hinv
  ·
    have he : endTop = true := by simpa using htop
    subst he
    obtain ⟨hpss, hstack, hlit, v, hdone⟩ := hinv
    simp only [Scanner.run, stateEndTop]
    by_cases h0 : isSpace c = true
    · simp only [h0, Bool.not_true, Bool.false_eq_true, if_false]
      intro _
      refine ⟨b, by simp [Builder.step, Builder.finishLiteral, hlit, Builder.act], Or.inl ?_⟩
      exact ⟨rfl, by simp, hpss, hstack, hlit, v, hdone⟩
    · simp only [h0, Bool.not_false, if_true]
      exact StepOK.doomed_end b c _ hlit
  · exact hinv.elim

theorem StackInv.nil_stack {fs : List Frame} (h : StackInv [] fs) : fs = [] := by
  cases fs with
  | nil => rfl
  | cons f fs => exact h.elim

theorem Ready.nil_result {b : Builder} (h : Ready [] b) :
    ∃ b1 v, b.finishLiteral = Except.ok b1 ∧ b1.done = some v ∧ b1.stack = [] := by
  obtain ⟨b1, v, hf, hdone, _, hstack, hst⟩ := h
  refine ⟨b1, v, hf, hdone, ?_⟩
  rw [hstack]
  rcases hst with h | ⟨h, _⟩
  · exact h.stackInv.nil_stack
  · exact h.nil_stack

theorem endTop_of_run_space (st : Step) (pss : List ParseState)
    (h : (Scanner.run ⟨st, pss, false, false⟩ 32).2.endTop = true) :
    pss = [] ∧ (st = Step.stateEndValue ∨ isLitStep st = true) := by
  have hsp : isSpace 32 = true := by decide
  cases pss with
  | nil =>
    refine ⟨rfl, ?_⟩
    cases st <;> simp [isLitStep] <;>
      simp [Scanner.run, stateBeginValueOrEmpty, stateBeginValue, stateBeginStringOrEmpty,
        stateBeginString, stateEndTop, stateInString, stateInStringEsc, stateHexDigit,
        hsp, ch_vals, ch_vals2, Scanner.error, isHex, isDigit] at h
  | cons ps rest =>
    exfalso
    cases st <;>
      simp [Scanner.run, stateBeginValueOrEmpty, stateBeginValue, stateBeginStringOrEmpty,
        stateBeginString, stateEndTop, stateEndValue, stateInString, stateInStringEsc,
        stateHexDigit, stateNeg, state1, state0, stateDot, stateDot0, stateE, stateESign,
        stateE0, stateLetter, hsp, ch_vals, ch_vals2, Scanner.error, isHex, isDigit] at h

theorem eof_ok (s : Scanner) (b : Builder) (hg : Good s b)
    (hop : (s.eof).1 ≠ Opcode.scanError) :
    ∃ b1 v, b.finishLiteral = Except.ok b1 ∧ b1.done = some v ∧ b1.stack = [] := by
  obtain ⟨st, pss, endTop, err⟩ := s
  obtain ⟨hne, htop, hinv⟩ := hg
  simp only at hne htop
  subst hne
  cases endTop with
  | true =>
    have hst : st = Step.stateEndTop := htop.mp rfl
    subst hst
    obtain ⟨_, hstack, hlit, v, hdone⟩ := hinv
    exact ⟨b, v, Builder.finishLiteral_none b hlit, hdone, hstack⟩
  | false =>
    have h1 : (Scanner.run ⟨st, pss, false, false⟩ 32).2.endTop = true := by
      by_contra hcon
      apply hop
      simp only [Scanner.eof, ch_vals2] at hcon ⊢
      simp [hcon]
    obtain ⟨hpss, hst⟩ := endTop_of_run_space st pss h1
    subst hpss
    rcases hst with hst | hst
    · subst hst
      exact Ready.nil_result hinv
    · obtain ⟨hsusp, rev, hlit, hns⟩ := hinv.lit hst
      exact Ready.nil_result (Ready.of_nonString hlit hns hsusp)

theorem checkValidLoop_cons (s : Scanner) (c : Nat) (cs : List Nat) :
    checkValidLoop s (c :: cs) =
      if (s.run c).1 = Opcode.scanError then none else checkValidLoop (s.run c).2 cs := by
  rcases hr : s.run c with ⟨op, s1⟩
  cases op <;> simp [checkValidLoop, hr]

theorem Doomed.loop_fails (s s1 : Scanner) (cs : List Nat) (hd : Doomed s)
    (hl : checkValidLoop s cs = some s1) : (s1.eof).1 = Opcode.scanError := by
  obtain ⟨st, pss, endTop, err⟩ := s
  obtain ⟨herr, hst⟩ := hd
  simp only at herr hst
  subst herr hst
  cases cs with
  | nil =>
    simp only [checkValidLoop, Option.some.injEq] at hl
    subst hl
    simp [Scanner.eof]
  | cons c cs =>
    rw [checkValidLoop_cons] at hl
    simp [Scanner.run] at hl

theorem walk_ok : ∀ (data : List Nat) (s : Scanner) (b : Builder) (s1 : Scanner),
    Good s b → checkValidLoop s data = some s1 → (s1.eof).1 ≠ Opcode.scanError →
    ∃ bEnd v, walk s b data = Except.ok bEnd ∧ bEnd.done = some v ∧ bEnd.stack = [] := by
  intro data
  induction data with
  | nil =>
    intro s b s1 hg hl hop
    simp only [checkValidLoop, Option.some.injEq] at hl
    subst hl
    exact eof_ok s b hg hop
  | cons c cs ih =>
    intro s b s1 hg hl hop
    rw [checkValidLoop_cons] at hl
    by_cases herr : (s.run c).1 = Opcode.scanError
    · simp [herr] at hl
    · rw [if_neg herr] at hl
      obtain ⟨b2, hstep, hnext⟩ := run_ok s b c hg herr
      rcases hnext with hgood | hdoom
      · obtain ⟨bEnd, v, hw, hdone, hstack⟩ := ih _ b2 s1 hgood hl hop
        exact ⟨bEnd, v, by simp only [walk, hstep, hw], hdone, hstack⟩
      · exact absurd (hdoom.loop_fails _ s1 cs hl) hop

/-- The decoder never meets a scanner code it does not expect: on every input
that `checkValid` accepts, the walk yields a JSON value. -/
theorem parseValue_ok (data : List Nat) (h : checkValid data = true) :
    ∃ j, parseValue data = Except.ok j := by
  have hg : Good Scanner.reset ⟨none, none, []⟩ :=
    ⟨rfl, by simp [Scanner.reset], rfl, rfl, trivial⟩
  unfold checkValid at h
  cases hl : checkValidLoop Scanner.reset data with
  | none => simp [hl] at h
  | some s1 =>
    simp only [hl, decide_eq_true_eq] at h
    obtain ⟨bEnd, v, hw, hdone, hstack⟩ := walk_ok data _ _ s1 hg hl h
    refine ⟨v, ?_⟩
    simp only [parseValue, hw, hdone, hstack]

/-- No call of `Unmarshal` panics, whatever the input and the target. -/
theorem Unmarshal_ok {T : Type} (store : JValue → T → Saved → T × Saved) (data : List UInt8)
    (v : T) : ∃ r, Unmarshal store data v = Except.ok r := by
  unfold Unmarshal
  by_cases h : checkValid (data.map UInt8.toNat) = true
  · obtain ⟨j, hj⟩ := parseValue_ok _ h
    exact ⟨store j v none, by simp [h, hj]⟩
  · exact ⟨(v, some "SyntaxError"), by simp [h]⟩

/-! ## The samples `Collect` sends -/

theorem map_adapterSamples {β : Type} (f : Metric → β) (adapters : List Adapter) :
    (adapterSamples adapters).map f = adapters.flatMap (fun a =>
      [f ⟨mainCollector.adapterPriorityMetric, ValueType.CounterValue, a.getPriorityMetric,
          [a.AdapterID, a.«Type»]⟩,
       f ⟨mainCollector.adapterStateMetric, ValueType.GaugeValue, a.getStateMetric,
          [a.AdapterID, a.«Type»]⟩,
       f ⟨mainCollector.adpaterOverlimitRateLimitMetric, ValueType.GaugeValue,
          a.DataUsage.OverlimitRateLimit, [a.AdapterID, a.«Type»]⟩,
       f ⟨mainCollector.adpaterUsageDailyMetric, ValueType.CounterValue,
          a.DataUsage.UsageDaily, [a.AdapterID, a.«Type»]⟩,
       f ⟨mainCollector.adpaterUsageDailyBoostMetric, ValueType.GaugeValue,
          a.DataUsage.UsageDailyBoost, [a.AdapterID, a.«Type»]⟩,
       f ⟨mainCollector.adapterUsageDailyLimitMetric, ValueType.GaugeValue,
          a.DataUsage.UsageDailyLimit, [a.AdapterID, a.«Type»]⟩,
       f ⟨mainCollector.adpaterUsageMonthlyMetric, ValueType.CounterValue,
          a.DataUsage.UsageMonthly, [a.AdapterID, a.«Type»]⟩,
       f ⟨mainCollector.adpaterUsageMonthlyLimitMetric, ValueType.GaugeValue,
          a.DataUsage.UsageMonthlyLimit, [a.AdapterID, a.«Type»]⟩]) := by
  induction adapters with
  | nil => rfl
  | cons a rest ih =>
    simp only [adapterSamples, List.flatMap_cons, List.map_append] at ih ⊢
    rw [ih]
    rfl

theorem length_adapterSamples (adapters : List Adapter) :
    (adapterSamples adapters).length = 8 * adapters.length := by
  induction adapters with
  | nil => rfl
  | cons a rest ih =>
    simp only [adapterSamples, List.flatMap_cons, List.length_append, List.length_cons] at ih ⊢
    rw [ih]
    simp only [List.length_nil]
    omega

/-- What `Collect` does for the collector built in `main`, whatever the tool
returns: both outputs decode without a panic, no sample constructor panics,
and the samples sent are the connection-state sample followed by the eight
samples of each decoded adapter. -/
theorem Collect_main (Output : String → List String → CmdResult) :
    ∃ (state : SpeedifyState) (adapters : List Adapter) (e1 e2 : Option String),
      Unmarshal storeSpeedifyState (Output speedify_cli ["state"]).out {} =
        Except.ok (state, e1) ∧
      Unmarshal storeAdapters (Output speedify_cli ["show", "adapters"]).out [] =
        Except.ok (adapters, e2) ∧
      mainCollector.Collect Output = Except.ok
        { logs :=
            (match (Output speedify_cli ["state"]).err with
              | some err => ["Errored while getting speedify state: " ++ err]
              | none => []) ++
            (match (Output speedify_cli ["show", "adapters"]).err with
              | some err => ["Errored while getting speedify adapters: " ++ err]
              | none => [])
          sent := ⟨mainCollector.stateMetric, ValueType.GaugeValue, state.getStateMetric, []⟩ ::
            adapterSamples adapters } := by
  obtain ⟨⟨state, e1⟩, hS⟩ := Unmarshal_ok storeSpeedifyState
    (Output speedify_cli ["state"]).out ({} : SpeedifyState)
  obtain ⟨⟨adapters, e2⟩, hA⟩ := Unmarshal_ok storeAdapters
    (Output speedify_cli ["show", "adapters"]).out ([] : List Adapter)
  refine ⟨state, adapters, e1, e2, hS, hA, ?_⟩
  simp only [SpeedifyCollector.Collect, hS, hA, collectAdapters_main]
  rfl

theorem Unmarshal_invalid {T : Type} (store : JValue → T → Saved → T × Saved)
    (data : List UInt8) (v : T) (h : checkValid (data.map UInt8.toNat) = false) :
    Unmarshal store data v = Except.ok (v, some "SyntaxError") := by
  simp [Unmarshal, h]

theorem Unmarshal_value {T : Type} (store : JValue → T → Saved → T × Saved)
    (data : List UInt8) (v : T) (j : JValue) (h : checkValid (data.map UInt8.toNat) = true)
    (hj : parseValue (data.map UInt8.toNat) = Except.ok j) :
    Unmarshal store data v = Except.ok (store j v none) := by
  simp [Unmarshal, h, hj]

/-- C4: whatever the tool returns, both outputs decode, to a connection state
and a list of `n` adapters, and `Collect` sends exactly `1 + 8 * n` samples:
first `speedify_state` with no label values, then for each adapter in list
order its eight samples in the order priority, state, overlimit_rate_limit,
daily_usage, daily_usage_boost, daily_usage_limit, monthly_usage,
monthly_usage_limit, each with the label values `(AdapterID, Type)`; for an
empty list only the connection-state sample is sent. -/
theorem Collect_samples_in_order (Output : String → List String → CmdResult) :
    ∃ (state : SpeedifyState) (adapters : List Adapter) (e1 e2 : Option String) (r : Scrape),
      Unmarshal storeSpeedifyState (Output speedify_cli ["state"]).out {} =
        Except.ok (state, e1) ∧
      Unmarshal storeAdapters (Output speedify_cli ["show", "adapters"]).out [] =
        Except.ok (adapters, e2) ∧
      mainCollector.Collect Output = Except.ok r ∧
      r.sent.length = 1 + 8 * adapters.length ∧
      r.sent.map (fun m => (m.desc.fqName, m.labelValues)) =
        ("speedify_state", []) :: adapters.flatMap (fun a =>
          [("speedify_adapter_priority", [a.AdapterID, a.«Type»]),
           ("speedify_adapter_state", [a.AdapterID, a.«Type»]),
           ("speedify_adapter_overlimit_rate_limit", [a.AdapterID, a.«Type»]),
           ("speedify_adapter_daily_usage", [a.AdapterID, a.«Type»]),
           ("speedify_adapter_daily_usage_boost", [a.AdapterID, a.«Type»]),
           ("speedify_adapter_daily_usage_limit", [a.AdapterID, a.«Type»]),
           ("speedify_adapter_monthly_usage", [a.AdapterID, a.«Type»]),
           ("speedify_adapter_monthly_usage_limit", [a.AdapterID, a.«Type»])]) ∧
      (adapters = [] → r.sent.map (fun m => m.desc.fqName) = ["speedify_state"]) := by
  obtain ⟨state, adapters, e1, e2, hS, hA, hC⟩ := Collect_main Output
  refine ⟨state, adapters, e1, e2, _, hS, hA, hC, ?_, ?_, ?_⟩
  · simp only [List.length_cons, length_adapterSamples]
    omega
  · simp only [List.map_cons]
    rw [map_adapterSamples]
    rfl
  · intro h
    subst h
    rfl

/-- The spec's scenario for C4: the state `CONNECTED` and the one adapter
`eth0` of type `wired` give nine samples, the eight of the adapter labeled
`(eth0, wired)`. -/
theorem Collect_samples_in_order_witness :
    ∃ r, mainCollector.Collect scenarioOutput = Except.ok r ∧
      r.sent.map (fun m => (m.desc.fqName, m.labelValues)) =
        [("speedify_state", []),
         ("speedify_adapter_priority", ["eth0", "wired"]),
         ("speedify_adapter_state", ["eth0", "wired"]),
         ("speedify_adapter_overlimit_rate_limit", ["eth0", "wired"]),
         ("speedify_adapter_daily_usage", ["eth0", "wired"]),
         ("speedify_adapter_daily_usage_boost", ["eth0", "wired"]),
         ("speedify_adapter_daily_usage_limit", ["eth0", "wired"]),
         ("speedify_adapter_monthly_usage", ["eth0", "wired"]),
         ("speedify_adapter_monthly_usage_limit", ["eth0", "wired"])] := by
  obtain ⟨state, adapters, e1, e2, r, hS, hA, hC, _, hmap, _⟩ :=
    Collect_samples_in_order scenarioOutput
  have hA2 : Unmarshal storeAdapters (scenarioOutput speedify_cli ["show", "adapters"]).out [] =
      Except.ok ([{ AdapterID := "eth0", «Type» := "wired", Priority := "always",
                    State := "connected",
                    DataUsage := { UsageDaily := ⟨false, 1043, 0⟩,
                                   UsageMonthly := ⟨false, 1048, 0x9000000000000⟩ } }],
        none) := by
    rfl
  rw [hA2] at hA
  injection hA with hA
  injection hA with hA _
  subst hA
  exact ⟨r, hC, hmap⟩

/-- C5: the values of the samples `Collect` sends are `getStateMetric` of the
decoded connection state for `speedify_state` and, for each decoded adapter,
`getPriorityMetric`, `getStateMetric` and the six `DataUsage` fields
unchanged, each under the metric of its own name. -/
theorem Collect_sample_values (Output : String → List String → CmdResult) :
    ∃ (state : SpeedifyState) (adapters : List Adapter) (e1 e2 : Option String) (r : Scrape),
      Unmarshal storeSpeedifyState (Output speedify_cli ["state"]).out {} =
        Except.ok (state, e1) ∧
      Unmarshal storeAdapters (Output speedify_cli ["show", "adapters"]).out [] =
        Except.ok (adapters, e2) ∧
      mainCollector.Collect Output = Except.ok r ∧
      r.sent.map (fun m => (m.desc.fqName, m.value)) =
        ("speedify_state", state.getStateMetric) :: adapters.flatMap (fun a =>
          [("speedify_adapter_priority", a.getPriorityMetric),
           ("speedify_adapter_state", a.getStateMetric),
           ("speedify_adapter_overlimit_rate_limit", a.DataUsage.OverlimitRateLimit),
           ("speedify_adapter_daily_usage", a.DataUsage.UsageDaily),
           ("speedify_adapter_daily_usage_boost", a.DataUsage.UsageDailyBoost),
           ("speedify_adapter_daily_usage_limit", a.DataUsage.UsageDailyLimit),
           ("speedify_adapter_monthly_usage", a.DataUsage.UsageMonthly),
           ("speedify_adapter_monthly_usage_limit", a.DataUsage.UsageMonthlyLimit)]) := by
  obtain ⟨state, adapters, e1, e2, hS, hA, hC⟩ := Collect_main Output
  refine ⟨state, adapters, e1, e2, _, hS, hA, hC, ?_⟩
  simp only [List.map_cons]
  rw [map_adapterSamples]
  rfl

/-- The spec's scenario for C5: priority 1, state 1, daily usage 1048576
(`2 ^ 20`) and monthly usage 52428800 (`1.5625 * 2 ^ 25`), the connection
state 2. -/
theorem Collect_sample_values_witness :
    ∃ r, mainCollector.Collect scenarioOutput = Except.ok r ∧
      r.sent.map (fun m => (m.desc.fqName, m.value)) =
        [("speedify_state", 2),
         ("speedify_adapter_priority", 1),
         ("speedify_adapter_state", 1),
         ("speedify_adapter_overlimit_rate_limit", 0),
         ("speedify_adapter_daily_usage", ⟨false, 1043, 0⟩),
         ("speedify_adapter_daily_usage_boost", 0),
         ("speedify_adapter_daily_usage_limit", 0),
         ("speedify_adapter_monthly_usage", ⟨false, 1048, 0x9000000000000⟩),
         ("speedify_adapter_monthly_usage_limit", 0)] := by
  obtain ⟨state, adapters, e1, e2, r, hS, hA, hC, hmap⟩ := Collect_sample_values scenarioOutput
  have hS2 : Unmarshal storeSpeedifyState (scenarioOutput speedify_cli ["state"]).out {} =
      Except.ok (⟨"CONNECTED"⟩, none) := by
    rfl
  have hA2 : Unmarshal storeAdapters (scenarioOutput speedify_cli ["show", "adapters"]).out [] =
      Except.ok ([{ AdapterID := "eth0", «Type» := "wired", Priority := "always",
                    State := "connected",
                    DataUsage := { UsageDaily := ⟨false, 1043, 0⟩,
                                   UsageMonthly := ⟨false, 1048, 0x9000000000000⟩ } }],
        none) := by
    rfl
  rw [hS2] at hS
  rw [hA2] at hA
  injection hS with hS
  injection hS with hS _
  injection hA with hA
  injection hA with hA _
  subst hS hA
  refine ⟨r, hC, ?_⟩
  rw [hmap]
  decide

/-- C6: the metric type of every sample `Collect` sends is the one fixed for
its metric name: counter for `speedify_adapter_priority`,
`speedify_adapter_daily_usage` and `speedify_adapter_monthly_usage`, gauge for
`speedify_state` and the five other per-adapter metrics; the nine names are
distinct. -/
theorem Collect_sample_types (Output : String → List String → CmdResult) :
    ∃ (adapters : List Adapter) (r : Scrape),
      mainCollector.Collect Output = Except.ok r ∧
      r.sent.map (fun m => (m.desc.fqName, m.valueType)) =
        ("speedify_state", ValueType.GaugeValue) :: adapters.flatMap (fun _ =>
          [("speedify_adapter_priority", ValueType.CounterValue),
           ("speedify_adapter_state", ValueType.GaugeValue),
           ("speedify_adapter_overlimit_rate_limit", ValueType.GaugeValue),
           ("speedify_adapter_daily_usage", ValueType.CounterValue),
           ("speedify_adapter_daily_usage_boost", ValueType.GaugeValue),
           ("speedify_adapter_daily_usage_limit", ValueType.GaugeValue),
           ("speedify_adapter_monthly_usage", ValueType.CounterValue),
           ("speedify_adapter_monthly_usage_limit", ValueType.GaugeValue)]) ∧
      (mainCollector.descriptors.map (fun d => d.fqName)).Nodup := by
  obtain ⟨state, adapters, e1, e2, hS, hA, hC⟩ := Collect_main Output
  refine ⟨adapters, _, hC, ?_, by decide⟩
  simp only [List.map_cons]
  rw [map_adapterSamples]
  rfl

/-! ## Failed invocations and output that does not decode -/

theorem head_value_of_state {state : SpeedifyState} {r : Scrape} {rest : List Metric}
    (h : r.sent =
      ⟨mainCollector.stateMetric, ValueType.GaugeValue, state.getStateMetric, []⟩ :: rest)
    (hs : state = {}) : r.sent.head?.map (fun m => m.value) = some 3 := by
  subst hs
  rw [h]
  rfl

theorem storeSpeedifyState_not_object (j : JValue) (cur : SpeedifyState)
    (h : ∀ members, j ≠ JValue.object members) : (storeSpeedifyState j cur none).1 = cur := by
  cases j with
  | object members => exact absurd rfl (h members)
  | _ => rfl

theorem storeAdapters_not_array (j : JValue) (h : ∀ elems, j ≠ JValue.array elems) :
    (storeAdapters j [] none).1 = [] := by
  cases j with
  | array elems => exact absurd rfl (h elems)
  | _ => rfl

/-- C9, as stated, fails: both invocations return an error, yet the bytes they
printed are decoded, so `speedify_state` is 2 and the eight samples of the
adapter `eth0` are sent. -/
theorem failed_invocation_output_is_decoded :
    (failedWithOutput speedify_cli ["state"]).err = some "exit status 1" ∧
    (failedWithOutput speedify_cli ["show", "adapters"]).err = some "exit status 1" ∧
    (2 : Float64) ≠ 3 ∧
    ∃ r, mainCollector.Collect failedWithOutput = Except.ok r ∧
      r.logs = ["Errored while getting speedify state: exit status 1",
                "Errored while getting speedify adapters: exit status 1"] ∧
      r.sent.map (fun m => (m.desc.fqName, m.value, m.labelValues)) =
        [("speedify_state", 2, []),
         ("speedify_adapter_priority", 1, ["eth0", "wired"]),
         ("speedify_adapter_state", 2, ["eth0", "wired"]),
         ("speedify_adapter_overlimit_rate_limit", 0, ["eth0", "wired"]),
         ("speedify_adapter_daily_usage", 0, ["eth0", "wired"]),
         ("speedify_adapter_daily_usage_boost", 0, ["eth0", "wired"]),
         ("speedify_adapter_daily_usage_limit", 0, ["eth0", "wired"]),
         ("speedify_adapter_monthly_usage", 0, ["eth0", "wired"]),
         ("speedify_adapter_monthly_usage_limit", 0, ["eth0", "wired"])] := by
  refine ⟨rfl, rfl, by decide, _, rfl, by decide, by decide⟩

/-- C9, amended: a failed invocation is logged and has no other effect.
`Collect` sends the same samples as if no invocation had failed, decoding the
bytes that were captured; it never aborts and always sends the
connection-state sample first. Where the captured output is not well-formed
JSON, as the empty output is, the state probe gives `speedify_state = 3` and
the adapter probe gives no per-adapter sample. -/
theorem Collect_after_failed_invocation (Output : String → List String → CmdResult) :
    ∃ (r r0 : Scrape),
      mainCollector.Collect Output = Except.ok r ∧
      mainCollector.Collect (fun name args => ⟨(Output name args).out, none⟩) = Except.ok r0 ∧
      r.sent = r0.sent ∧
      r.logs =
        (match (Output speedify_cli ["state"]).err with
          | some err => ["Errored while getting speedify state: " ++ err]
          | none => []) ++
        (match (Output speedify_cli ["show", "adapters"]).err with
          | some err => ["Errored while getting speedify adapters: " ++ err]
          | none => []) ∧
      r.sent.head?.map (fun m => (m.desc.fqName, m.valueType, m.labelValues)) =
        some ("speedify_state", ValueType.GaugeValue, []) ∧
      (checkValid ((Output speedify_cli ["state"]).out.map UInt8.toNat) = false →
        r.sent.head?.map (fun m => m.value) = some 3) ∧
      (checkValid ((Output speedify_cli ["show", "adapters"]).out.map UInt8.toNat) = false →
        r.sent.length = 1) ∧
      checkValid [] = false := by
  obtain ⟨state, adapters, e1, e2, hS, hA, hC⟩ := Collect_main Output
  obtain ⟨state0, adapters0, e10, e20, hS0, hA0, hC0⟩ :=
    Collect_main (fun name args => ⟨(Output name args).out, none⟩)
  simp only at hS0 hA0
  rw [hS] at hS0
  rw [hA] at hA0
  injection hS0 with hS0
  injection hS0 with hs _
  injection hA0 with hA0
  injection hA0 with ha _
  subst hs ha
  refine ⟨_, _, hC, hC0, rfl, rfl, rfl, ?_, ?_, by decide⟩
  · intro h
    rw [Unmarshal_invalid _ _ _ h] at hS
    injection hS with hS
    injection hS with hs _
    exact head_value_of_state rfl hs.symm
  · intro h
    rw [Unmarshal_invalid _ _ _ h] at hA
    injection hA with hA
    injection hA with ha _
    subst ha
    rfl

/-- The amended C9 where both invocations fail without output: two lines are
logged and the one sample sent is `speedify_state = 3`. -/
theorem Collect_after_failed_invocation_witness :
    ∃ r, mainCollector.Collect failedWithoutOutput = Except.ok r ∧
      r.sent.head?.map (fun m => m.value) = some 3 ∧ r.sent.length = 1 ∧
      r.logs.length = 2 := by
  obtain ⟨r, r0, hC, _, _, hlogs, _, h3, h1, _⟩ :=
    Collect_after_failed_invocation failedWithoutOutput
  exact ⟨r, hC, h3 (by decide), h1 (by decide), by rw [hlogs]; rfl⟩

/-- C10, as stated, fails: both outputs are well-formed JSON that does not
match the records, `json.Unmarshal` returns an error for both, and yet the
state decoded is `CONNECTED` (`speedify_state = 2`) and the adapter list has
one adapter, whose eight samples are sent. -/
theorem mismatched_output_is_partly_decoded :
    Unmarshal storeSpeedifyState (mismatchedOutput speedify_cli ["state"]).out {} =
      Except.ok (⟨"CONNECTED"⟩, some "number") ∧
    Unmarshal storeAdapters (mismatchedOutput speedify_cli ["show", "adapters"]).out [] =
      Except.ok ([{ AdapterID := "eth0", «Type» := "wired" }], some "number") ∧
    (2 : Float64) ≠ 3 ∧
    ∃ r, mainCollector.Collect mismatchedOutput = Except.ok r ∧
      r.sent.map (fun m => (m.desc.fqName, m.value, m.labelValues)) =
        [("speedify_state", 2, []),
         ("speedify_adapter_priority", 4, ["eth0", "wired"]),
         ("speedify_adapter_state", 2, ["eth0", "wired"]),
         ("speedify_adapter_overlimit_rate_limit", 0, ["eth0", "wired"]),
         ("speedify_adapter_daily_usage", 0, ["eth0", "wired"]),
         ("speedify_adapter_daily_usage_boost", 0, ["eth0", "wired"]),
         ("speedify_adapter_daily_usage_limit", 0, ["eth0", "wired"]),
         ("speedify_adapter_monthly_usage", 0, ["eth0", "wired"]),
         ("speedify_adapter_monthly_usage_limit", 0, ["eth0", "wired"])] := by
  refine ⟨rfl, rfl, by decide, _, rfl, by decide⟩

/-- C10, amended: for output that is not well-formed JSON (malformed or
truncated), and for well-formed JSON whose top-level value is of the wrong
kind (not an object for the state, not an array for the adapters), decoding
leaves the zero-initialized target as it is: the state keeps `State = ""`, so
`speedify_state = 3`, and the adapter list is empty, so no per-adapter sample
is sent. `Collect` does not surface the decode error: it returns normally and
logs only failed invocations. -/
theorem Collect_undecodable_output (Output : String → List String → CmdResult) :
    ∃ (state : SpeedifyState) (adapters : List Adapter) (e1 e2 : Option String) (r : Scrape),
      Unmarshal storeSpeedifyState (Output speedify_cli ["state"]).out {} =
        Except.ok (state, e1) ∧
      Unmarshal storeAdapters (Output speedify_cli ["show", "adapters"]).out [] =
        Except.ok (adapters, e2) ∧
      mainCollector.Collect Output = Except.ok r ∧
      r.logs =
        (match (Output speedify_cli ["state"]).err with
          | some err => ["Errored while getting speedify state: " ++ err]
          | none => []) ++
        (match (Output speedify_cli ["show", "adapters"]).err with
          | some err => ["Errored while getting speedify adapters: " ++ err]
          | none => []) ∧
      (checkValid ((Output speedify_cli ["state"]).out.map UInt8.toNat) = false →
        state = {} ∧ e1 = some "SyntaxError" ∧
        r.sent.head?.map (fun m => m.value) = some 3) ∧
      (checkValid ((Output speedify_cli ["show", "adapters"]).out.map UInt8.toNat) = false →
        adapters = [] ∧ e2 = some "SyntaxError" ∧ r.sent.length = 1) ∧
      (∀ j, checkValid ((Output speedify_cli ["state"]).out.map UInt8.toNat) = true →
        parseValue ((Output speedify_cli ["state"]).out.map UInt8.toNat) = Except.ok j →
        (∀ members, j ≠ JValue.object members) →
        state = {} ∧ r.sent.head?.map (fun m => m.value) = some 3) ∧
      (∀ j, checkValid ((Output speedify_cli ["show", "adapters"]).out.map UInt8.toNat) = true →
        parseValue ((Output speedify_cli ["show", "adapters"]).out.map UInt8.toNat) =
          Except.ok j →
        (∀ elems, j ≠ JValue.array elems) →
        adapters = [] ∧ r.sent.length = 1) := by
  obtain ⟨state, adapters, e1, e2, hS, hA, hC⟩ := Collect_main Output
  refine ⟨state, adapters, e1, e2, _, hS, hA, hC, rfl, ?_, ?_, ?_, ?_⟩
  · intro h
    rw [Unmarshal_invalid _ _ _ h] at hS
    injection hS with hS
    injection hS with hs he
    exact ⟨hs.symm, he.symm, head_value_of_state rfl hs.symm⟩
  · intro h
    rw [Unmarshal_invalid _ _ _ h] at hA
    injection hA with hA
    injection hA with ha he
    subst ha
    exact ⟨rfl, he.symm, rfl⟩
  · intro j hv hj hk
    rw [Unmarshal_value _ _ _ j hv hj] at hS
    injection hS with hS
    have hs : state = {} := by
      rw [← storeSpeedifyState_not_object j {} hk, hS]
    exact ⟨hs, head_value_of_state rfl hs⟩
  · intro j hv hj hk
    rw [Unmarshal_value _ _ _ j hv hj] at hA
    injection hA with hA
    have ha : adapters = [] := by
      rw [← storeAdapters_not_array j hk, hA]
    subst ha
    exact ⟨rfl, rfl⟩

/-- The amended C10 on truncated output: neither output is well-formed, the
state keeps its zero value and the one sample sent is `speedify_state = 3`;
nothing is logged. -/
theorem Collect_undecodable_output_witness :
    ∃ r, mainCollector.Collect truncatedOutput = Except.ok r ∧
      r.logs = [] ∧
      r.sent.map (fun m => (m.desc.fqName, m.value)) = [("speedify_state", 3)] := by
  obtain ⟨state, adapters, e1, e2, r, hS, hA, hC, hlogs, h1, h2, _, _⟩ :=
    Collect_undecodable_output truncatedOutput
  obtain ⟨hs, _, _⟩ := h1 (by decide)
  obtain ⟨ha, _, _⟩ := h2 (by decide)
  subst hs ha
  have hC2 := hC
  rw [show mainCollector.Collect truncatedOutput = Except.ok
    ⟨[], [⟨mainCollector.stateMetric, ValueType.GaugeValue, 3, []⟩]⟩ from rfl] at hC2
  injection hC2 with hr
  subst hr
  exact ⟨_, hC, rfl, by decide⟩

end Speedify
